import Mathlib

/-!
# Virtual socket transport of `wasm/net.go`

A shallow embedding of the Go package `wasm` (file `wasm/net.go`): the three
registries, the channels they hold, the four callbacks the host invokes
(`acceptor`, `connectReply`, `receiver`, `closer`), `Dialer`, `Listen`, and the
methods of `listenerWasm` and `connWasm`.

Go state is passed explicitly: `World` holds the package-level variables, the
channels (by identifier, so that a registry and a connection can hold the same
channel) and the list of bridge calls made so far.  A goroutine that would block
is reported as `blocked`; a Go panic as `panic`.
-/

namespace Wasm

/-! ## Bytes, time, errors, JavaScript values -/

/-- A Go `byte`. -/
abbrev Byte := Fin 256

/-- A Go `[]byte` that is not nil. -/
abbrev Bytes := List Byte

/-- A `time.Time`; `0` is the zero value `time.Time{}`. -/
abbrev Time := Nat

/-- Go error values made or passed on by the package. `errorf format args` is
`fmt.Errorf(format, args...)`; its rendering is left to `fmt`. -/
inductive GoError where
  | errorf (format : String) (args : List String)
  | EOF
  | corruptInput
  deriving DecidableEq, Repr

/-- A `js.Value` handed over by the host. -/
inductive JsValue where
  | null
  | undefined
  | str (s : String)
  | number (n : Int)
  | boolean (b : Bool)
  | object
  deriving DecidableEq, Repr

/-- `js.Value.IsNull`. -/
def JsValue.IsNull : JsValue → Bool
  | .null => true
  | _ => false

/-- `js.Value.IsUndefined`. -/
def JsValue.IsUndefined : JsValue → Bool
  | .undefined => true
  | _ => false

/-- `js.Value.String`: the string itself for a string, a bracketed description
of the type for every other value. -/
def JsValue.String : JsValue → String
  | .null => "<null>"
  | .undefined => "<undefined>"
  | .str s => s
  | .number n => "<number: " ++ toString n ++ ">"
  | .boolean b => "<boolean: " ++ toString b ++ ">"
  | .object => "<object>"

/-- Conversion `uint16(x)` of a Go `int`. -/
def uint16 (x : Int) : Nat := (x % 65536).toNat

/-- Conversion `uint32(x)` of a Go `int`. -/
def uint32 (x : Int) : Nat := (x % 4294967296).toNat

/-- Outcome of `checkJsError`: `nil`, an error, or a panic. -/
inductive Checked where
  | nil
  | err (e : GoError)
  | panic (msg : String)
  deriving DecidableEq, Repr

/-- `checkJsError` (net.go 86-97). -/
def checkJsError (v : JsValue) : Checked :=
  if v.IsNull || v.IsUndefined then .nil
  else
    let errStr := v.String
    if errStr.length = 0 then .panic "wasm module returns empty error message"
    else .err (.errorf errStr [])

/-! ## `encoding/base64`, `StdEncoding` -/

/-- The decode map of the standard alphabet: the 6-bit value of a character,
`none` for a character outside the alphabet. -/
def b64Index (c : Char) : Option Nat :=
  let n := c.toNat
  if 65 ≤ n ∧ n ≤ 90 then some (n - 65)
  else if 97 ≤ n ∧ n ≤ 122 then some (n - 97 + 26)
  else if 48 ≤ n ∧ n ≤ 57 then some (n - 48 + 52)
  else if n = 43 then some 62
  else if n = 47 then some 63
  else none

/-- A carriage return or a line feed, which the decoder skips. -/
def isNewline (c : Char) : Bool := c.toNat = 10 || c.toNat = 13

/-- The padding character `=`. -/
def isPad (c : Char) : Bool := c.toNat = 61

/-- Drop leading newline characters. -/
def skipNewlines : List Char → List Char
  | [] => []
  | c :: cs => if isNewline c then skipNewlines cs else c :: cs

/-- The bytes of one quantum: `dbuf` holds the 2, 3 or 4 six-bit values read,
giving 1, 2 or 3 bytes. Bits beyond the last byte are dropped (the encoding is
not strict). -/
def quantumBytes (dbuf : List Nat) : Bytes :=
  let val := dbuf.getD 0 0 * 262144 + dbuf.getD 1 0 * 4096 + dbuf.getD 2 0 * 64 + dbuf.getD 3 0
  let all : Bytes := [Fin.ofNat (val / 65536), Fin.ofNat (val / 256), Fin.ofNat val]
  all.take (dbuf.length - 1)

/-- `Encoding.Decode` for `StdEncoding`, reading `src` with `dbuf` the values of
the quantum under way. `none` is a `CorruptInputError`. -/
def decodeFrom : List Char → List Nat → Option Bytes
  | [], dbuf => if dbuf.length = 0 then some [] else none
  | c :: cs, dbuf =>
    match b64Index c with
    | some v =>
      if dbuf.length = 3 then
        (decodeFrom cs []).map (fun rest => quantumBytes (dbuf ++ [v]) ++ rest)
      else decodeFrom cs (dbuf ++ [v])
    | none =>
      if isNewline c then decodeFrom cs dbuf
      else if !isPad c then none
      else if dbuf.length < 2 then none
      else if dbuf.length = 2 then
        match skipNewlines cs with
        | [] => none
        | c2 :: cs2 =>
          if !isPad c2 then none
          else if (skipNewlines cs2).length ≠ 0 then none
          else some (quantumBytes dbuf)
      else
        if (skipNewlines cs).length ≠ 0 then none
        else some (quantumBytes dbuf)

/-- `base64.StdEncoding.DecodeString`: the decoded bytes, or `none` when the
call returns an error. The slice returned on success is never nil. -/
def DecodeString (s : String) : Option Bytes := decodeFrom s.toList []

/-- The character of a 6-bit value in the standard alphabet. -/
def b64Char (v : Nat) : Char :=
  if v < 26 then Char.ofNat (65 + v)
  else if v < 52 then Char.ofNat (97 + (v - 26))
  else if v < 62 then Char.ofNat (48 + (v - 52))
  else if v = 62 then Char.ofNat 43
  else Char.ofNat 47

/-- `Encoding.Encode` for `StdEncoding` (with padding). -/
def encodeChars : Bytes → List Char
  | [] => []
  | [a] =>
    [b64Char (a.val / 4), b64Char (a.val % 4 * 16), Char.ofNat 61, Char.ofNat 61]
  | [a, b] =>
    [b64Char (a.val / 4), b64Char (a.val % 4 * 16 + b.val / 16),
     b64Char (b.val % 16 * 4), Char.ofNat 61]
  | a :: b :: c :: rest =>
    b64Char (a.val / 4) :: b64Char (a.val % 4 * 16 + b.val / 16) ::
    b64Char (b.val % 16 * 4 + c.val / 64) :: b64Char (c.val % 64) :: encodeChars rest

/-- `base64.StdEncoding.EncodeToString`. -/
def EncodeToString (b : Bytes) : String := String.mk (encodeChars b)

/-! ## Channels -/

/-- A Go channel: capacity, buffered values, the values of the senders parked in
a send (in the order they parked), and whether it has been closed. -/
structure Chan (α : Type) where
  cap : Nat
  buf : List α
  sendq : List α
  closed : Bool
  deriving DecidableEq, Repr

/-- `make(chan T, cap)`. -/
def Chan.make {α : Type} (cap : Nat) : Chan α := ⟨cap, [], [], false⟩

/-- Outcome of `ch <- v`. -/
inductive SendResult (α : Type) where
  | sent (ch : Chan α)
  | parked (ch : Chan α)
  | panic
  deriving DecidableEq, Repr

/-- `ch <- v`: panics on a closed channel, completes when the buffer has room,
otherwise the sender parks with its value until a receiver takes it. -/
def Chan.send {α : Type} (ch : Chan α) (v : α) : SendResult α :=
  if ch.closed then .panic
  else if ch.buf.length < ch.cap then .sent { ch with buf := ch.buf ++ [v] }
  else .parked { ch with sendq := ch.sendq ++ [v] }

/-- Outcome of `v, ok := <-ch`. `resumed` tells that the receive completed the
send of a parked sender, which thereby resumes. -/
inductive RecvResult (α : Type) where
  | value (v : α) (ch : Chan α) (resumed : Bool)
  | closed
  | wouldBlock
  deriving DecidableEq, Repr

/-- `v, ok := <-ch`: the oldest buffered value (a parked sender then moves its
value into the buffer), else the value of a parked sender, else `ok = false` on
a closed channel, else the receiver has to wait. -/
def Chan.recv {α : Type} (ch : Chan α) : RecvResult α :=
  match ch.buf with
  | v :: rest =>
    match ch.sendq with
    | s :: more => .value v { ch with buf := rest ++ [s], sendq := more } true
    | [] => .value v { ch with buf := rest } false
  | [] =>
    match ch.sendq with
    | s :: more => .value s { ch with sendq := more } true
    | [] => if ch.closed then .closed else .wouldBlock

/-- Outcome of `close(ch)`: the closed channel, or the message of the panic. -/
inductive CloseResult (α : Type) where
  | done (ch : Chan α)
  | panic (msg : String)
  deriving DecidableEq, Repr

/-- `close(ch)`: closing a closed channel panics; closing a channel on which a
sender is parked makes that sender panic. -/
def Chan.close {α : Type} (ch : Chan α) : CloseResult α :=
  if ch.closed then .panic "close of closed channel"
  else if ch.sendq.length ≠ 0 then .panic "send on closed channel"
  else .done { ch with closed := true }

/-- Everything a receiver will still get from the channel, in order. -/
def Chan.pending {α : Type} (ch : Chan α) : List α := ch.buf ++ ch.sendq

/-- The channel with identifier `id`, receiving from it. An identifier that
names no channel behaves as a nil channel: the receiver waits for ever. -/
def recvOn {α : Type} (chans : List (Chan α)) (id : Nat) : RecvResult α :=
  match chans[id]? with
  | some ch => ch.recv
  | none => .wouldBlock

/-- Sending on the channel with identifier `id` (a nil channel parks the sender). -/
def sendOn {α : Type} (chans : List (Chan α)) (id : Nat) (v : α) : SendResult α :=
  match chans[id]? with
  | some ch => ch.send v
  | none => .parked (Chan.make 0)

/-- Closing the channel with identifier `id` (closing a nil channel panics). -/
def closeOn {α : Type} (chans : List (Chan α)) (id : Nat) : CloseResult α :=
  match chans[id]? with
  | some ch => ch.close
  | none => .panic "close of nil channel"

/-! ## Go maps keyed by a port or a key, holding channel identifiers -/

/-- Lookup `v, ok := m[k]`. -/
def mapGet : List (Nat × Nat) → Nat → Option Nat
  | [], _ => none
  | (k1, v) :: m, k => if k1 = k then some v else mapGet m k

/-- Removal `delete(m, k)`. -/
def mapDelete : List (Nat × Nat) → Nat → List (Nat × Nat)
  | [], _ => []
  | (k1, v) :: m, k => if k1 = k then mapDelete m k else (k1, v) :: mapDelete m k

/-- Assignment `m[k] = v`. -/
def mapSet (m : List (Nat × Nat)) (k v : Nat) : List (Nat × Nat) :=
  (k, v) :: mapDelete m k

/-! ## Types and package variables of `net.go` -/

/-- Struct `accepterEntry`. -/
structure accepterEntry where
  serverPort : Nat
  clientPort : Nat
  deriving DecidableEq, Repr

/-- Struct `connectorEntry`. -/
structure connectorEntry where
  serverPort : Nat
  clientPort : Nat
  err : Option GoError
  deriving DecidableEq, Repr

/-- Struct `addrWasm`. -/
structure addrWasm where
  port : Nat
  deriving DecidableEq, Repr

/-- Function `newAddr`. -/
def newAddr (port : Nat) : addrWasm := { port := port }

/-- Struct `listenerWasm`; `accepter` is the identifier of its channel. -/
structure listenerWasm where
  listenAddr : addrWasm
  accepter : Nat
  deriving DecidableEq, Repr

/-- Struct `connWasm`; `receiver` is the identifier of its channel, `buffer` the
queue of fragments not yet consumed. A value of the channel is `none` for a nil
slice (the wake sentinel) and `some bytes` for a payload. -/
structure connWasm where
  localAddr : addrWasm
  remoteAddr : addrWasm
  deadline : Time
  receiver : Nat
  buffer : List Bytes
  deriving DecidableEq, Repr

/-- Constant `ACCEPTER_BUFFERS`. -/
def ACCEPTER_BUFFERS : Nat := 10

/-- Constant `RECEIVER_BUFFERS`. -/
def RECEIVER_BUFFERS : Nat := 10

/-- A call `jsModule.Call(name, args...)` into the host. -/
inductive BridgeCall where
  | listen (port : Nat)
  | connect (key : Nat) (port : Nat)
  | write (port : Nat) (payload : String)
  | close (port : Nat)
  deriving DecidableEq, Repr

/-- The package-level state: the three registries `accepters`, `connectors`,
`receivers` (channel identifiers index the three channel lists), whether
`accepterMtx` is held by a goroutine parked in a send, and the bridge calls made
so far. `connectorMtx` and `receiverMtx` are never held across a blocking
operation, so the sections they guard are taken as atomic. -/
structure World where
  accepterChans : List (Chan accepterEntry)
  connectorChans : List (Chan connectorEntry)
  receiverChans : List (Chan (Option Bytes))
  accepters : List (Nat × Nat)
  accepterMtx : Bool
  connectors : List (Nat × Nat)
  receivers : List (Nat × Nat)
  calls : List BridgeCall
  deriving DecidableEq, Repr

/-- State at program start: the maps are made empty by the `var` block. -/
def World.init : World :=
  { accepterChans := [], connectorChans := [], receiverChans := [],
    accepters := [], accepterMtx := false, connectors := [], receivers := [], calls := [] }

/-- How a call ends: it returns a value, returns a non-nil error, stays parked
at a blocking operation (with the state reached so far), or panics. -/
inductive Result (α : Type) where
  | ret (w : World) (a : α)
  | err (w : World) (e : GoError)
  | blocked (w : World)
  | panic (msg : String)
  deriving DecidableEq, Repr

/-- What a callback hands back to the host (`interface{}`): `nil`, a string, or
a Go `error` value. -/
inductive HandlerRet where
  | null
  | str (s : String)
  | goErr (e : GoError)
  deriving DecidableEq, Repr

/-! ## Callbacks invoked by the host -/

/-- `acceptor` (net.go 104-123). The send happens with `accepterMtx` held, so a
parked `acceptor` keeps the mutex until `Accept` takes its entry; it then
returns nil. -/
def acceptor (w : World) (a0 a1 a2 : Int) : Result HandlerRet :=
  let listenPort := uint16 a0
  let serverPort := uint16 a1
  let clientPort := uint16 a2
  if w.accepterMtx then .blocked w
  else
    match mapGet w.accepters listenPort with
    | none => .ret w (.str "the port is not on standby")
    | some accepter =>
      match sendOn w.accepterChans accepter { serverPort := serverPort, clientPort := clientPort } with
      | .panic => .panic "send on closed channel"
      | .sent ch => .ret { w with accepterChans := w.accepterChans.set accepter ch } .null
      | .parked ch =>
        .blocked { w with accepterChans := w.accepterChans.set accepter ch, accepterMtx := true }

/-- `connectReply` (net.go 130-159). When the send parks, the callback returns
nil once `Dialer` has taken the entry. -/
def connectReply (w : World) (a0 a1 a2 : Int) (err : JsValue) : Result HandlerRet :=
  let key := uint32 a0
  let serverPort := uint16 a1
  let clientPort := uint16 a2
  match mapGet w.connectors key with
  | none => .ret w (.str "there is no connector waiting")
  | some connector =>
    let entry : connectorEntry :=
      if err.IsNull then { serverPort := serverPort, clientPort := clientPort, err := none }
      else { serverPort := 0, clientPort := 0, err := some (.errorf err.String []) }
    match sendOn w.connectorChans connector entry with
    | .panic => .panic "send on closed channel"
    | .sent ch => .ret { w with connectorChans := w.connectorChans.set connector ch } .null
    | .parked ch => .blocked { w with connectorChans := w.connectorChans.set connector ch }

/-- `receiver` (net.go 166-184). When the send parks (channel full), the
callback returns nil once a `Read` has made room. -/
def receiver (w : World) (a0 : Int) (data : String) : Result HandlerRet :=
  let targetPort := uint16 a0
  match mapGet w.receivers targetPort with
  | none => .ret w (.str "target port is not open")
  | some receiver =>
    match DecodeString data with
    | none => .ret w (.goErr .corruptInput)
    | some byteData =>
      match sendOn w.receiverChans receiver (some byteData) with
      | .panic => .panic "send on closed channel"
      | .sent ch => .ret { w with receiverChans := w.receiverChans.set receiver ch } .null
      | .parked ch => .blocked { w with receiverChans := w.receiverChans.set receiver ch }

/-- `closer` (net.go 190-200). -/
def closer (w : World) (a0 : Int) : Result HandlerRet :=
  let port := uint16 a0
  match mapGet w.receivers port with
  | some receiver =>
    match closeOn w.receiverChans receiver with
    | .panic msg => .panic msg
    | .done ch => .ret { w with receiverChans := w.receiverChans.set receiver ch } .null
  | none => .ret w .null

/-! ## Dial -/

/-- An ASCII digit, the class `\d` of the pattern. -/
def isDigit (c : Char) : Bool := 48 ≤ c.toNat && c.toNat ≤ 57

/-- The submatch of the pattern `^localhost:(\d+)$` in `target`: the digits
after the fixed text, `none` when `FindStringSubmatch` finds no match. -/
def matchTarget (target : String) : Option (List Char) :=
  let cs := target.toList
  let head := "localhost:".toList
  if cs.take head.length = head then
    let digits := cs.drop head.length
    if digits.length ≠ 0 ∧ digits.all isDigit then some digits else none
  else none

/-- The decimal value of a string of digits. -/
def decimal (digits : List Char) : Nat :=
  digits.foldl (fun acc c => acc * 10 + (c.toNat - 48)) 0

/-- `strconv.Atoi` on a string of digits with the error dropped (`targetPort, _ :=`):
a value out of the range of the 64-bit `int` comes back as the largest `int`. -/
def Atoi (digits : List Char) : Nat := min (decimal digits) (2 ^ 63 - 1)

/-- The loop `for { key = rand.Uint32(); if _, ok := connectors[key]; !ok { break } }`
run on the successive values `draws` of `rand.Uint32()`: the first one that is
not a key of the registry; `none` when all of them are taken. -/
def pickKey (connectors : List (Nat × Nat)) : List Nat → Option Nat
  | [] => none
  | r :: rs =>
    let key := r % 4294967296
    if (mapGet connectors key).isSome then pickKey connectors rs else some key

/-- How `Dialer` stands: returned `nil, err`; parked at `resp := <-connector`
(with its `key` and `connector`); returned a connection; still drawing keys;
panicked. -/
inductive DialResult where
  | failed (w : World) (e : GoError)
  | waiting (w : World) (key : Nat) (connector : Nat)
  | connected (w : World) (c : connWasm)
  | spinning
  | panic (msg : String)
  deriving DecidableEq, Repr

/-- `Dialer` from `resp := <-connector` on (net.go 230-254). A receive from the
closed `connector` yields a nil entry, and closing it again panics. -/
def Dialer_resume (w : World) (key connector : Nat) : DialResult :=
  match recvOn w.connectorChans connector with
  | .wouldBlock => .waiting w key connector
  | .closed => .panic "close of closed channel"
  | .value resp ch _ =>
    match ch.close with
    | .panic msg => .panic msg
    | .done ch1 =>
      let w1 := { w with connectorChans := w.connectorChans.set connector ch1,
                         connectors := mapDelete w.connectors key }
      match resp.err with
      | some e => .failed w1 e
      | none =>
        let receiver := w1.receiverChans.length
        let w2 := { w1 with receiverChans := w1.receiverChans ++ [Chan.make RECEIVER_BUFFERS],
                            receivers := mapSet w1.receivers resp.clientPort receiver }
        .connected w2
          { localAddr := newAddr resp.clientPort, remoteAddr := newAddr resp.serverPort,
            deadline := 0, receiver := receiver, buffer := [] }

/-- `Dialer` (net.go 202-254). `draws` are the values `rand.Uint32()` yields,
`hostRet` what the bridge call `connect` returns. -/
def Dialer (w : World) (target : String) (draws : List Nat) (hostRet : JsValue) : DialResult :=
  match matchTarget target with
  | none => .failed w (.errorf "the target `%s` is unexpected format" [target])
  | some digits =>
    let targetPort := Atoi digits
    match pickKey w.connectors draws with
    | none => .spinning
    | some key =>
      let connector := w.connectorChans.length
      let w1 := { w with connectorChans := w.connectorChans ++ [Chan.make 0],
                         connectors := mapSet w.connectors key connector }
      let w2 := { w1 with calls := w1.calls ++ [.connect key (targetPort % 65536)] }
      match checkJsError hostRet with
      | .err e => .failed w2 e
      | .panic msg => .panic msg
      | .nil => Dialer_resume w2 key connector

/-! ## Listen, Accept, Close of a listener -/

/-- `Listen` (net.go 257-275); `hostRet` is what the bridge call `listen`
returns. It waits while a parked `acceptor` holds `accepterMtx`. -/
def Listen (w : World) (port : Nat) (hostRet : JsValue) : Result listenerWasm :=
  if w.accepterMtx then .blocked w
  else
    match mapGet w.accepters port with
    | some _ => .err w (.errorf "port %d is already in use" [toString port])
    | none =>
      let w1 := { w with calls := w.calls ++ [.listen port] }
      match checkJsError hostRet with
      | .err e => .err w1 e
      | .panic msg => .panic msg
      | .nil =>
        let accepter := w1.accepterChans.length
        .ret { w1 with accepterChans := w1.accepterChans ++ [Chan.make 0],
                       accepters := mapSet w1.accepters port accepter }
          { listenAddr := newAddr port, accepter := accepter }

/-- `listenerWasm.Accept` (net.go 278-300). Taking the entry of a parked
`acceptor` lets that callback return, which releases `accepterMtx`. -/
def listenerWasm.Accept (w : World) (l : listenerWasm) : Result connWasm :=
  match recvOn w.accepterChans l.accepter with
  | .wouldBlock => .blocked w
  | .closed => .err w (.errorf "port %d has been closed" [toString l.listenAddr.port])
  | .value entry ch resumed =>
    let w1 := { w with accepterChans := w.accepterChans.set l.accepter ch,
                       accepterMtx := if resumed then false else w.accepterMtx }
    match mapGet w1.receivers entry.serverPort with
    | some _ => .panic "duplicate port"
    | none =>
      let receiver := w1.receiverChans.length
      .ret { w1 with receiverChans := w1.receiverChans ++ [Chan.make RECEIVER_BUFFERS],
                     receivers := mapSet w1.receivers entry.serverPort receiver }
        { localAddr := newAddr entry.serverPort, remoteAddr := newAddr entry.clientPort,
          deadline := 0, receiver := receiver, buffer := [] }

/-- `listenerWasm.Close` (net.go 304-316); `hostRet` is what the bridge call
`close` returns. -/
def listenerWasm.Close (w : World) (l : listenerWasm) (hostRet : JsValue) : Result Unit :=
  let w1 := { w with calls := w.calls ++ [.close l.listenAddr.port] }
  match checkJsError hostRet with
  | .err e => .err w1 e
  | .panic msg => .panic msg
  | .nil =>
    if w1.accepterMtx then .blocked w1
    else
      match closeOn w1.accepterChans l.accepter with
      | .panic msg => .panic msg
      | .done ch =>
        .ret { w1 with accepterChans := w1.accepterChans.set l.accepter ch,
                       accepters := mapDelete w1.accepters l.listenAddr.port } ()

/-- `listenerWasm.Addr`. -/
def listenerWasm.Addr (l : listenerWasm) : addrWasm := l.listenAddr

/-! ## Methods of a connection -/

/-- Builtin `copy(dst, src)`: the destination afterwards and the number of
bytes copied. -/
def copy (dst src : Bytes) : Bytes × Nat :=
  let n := min dst.length src.length
  (src.take n ++ dst.drop n, n)

/-- What `Read` hands back: the caller's buffer afterwards, `n` and `err`. -/
structure ReadRet where
  b : Bytes
  n : Nat
  err : Option GoError
  deriving DecidableEq, Repr

/-- How a method of a connection ends; the connection is returned with the
fields as the method left them. -/
inductive ConnResult (α : Type) where
  | ret (w : World) (c : connWasm) (a : α)
  | blocked (w : World) (c : connWasm)
  | panic (msg : String)
  deriving DecidableEq, Repr

/-- The deadline check of `Read` (net.go 340-342): a deadline that lies before
`now` is reset to the zero value. -/
def connWasm.expire (c : connWasm) (now : Time) : connWasm :=
  if c.deadline < now then { c with deadline := 0 } else c

/-- The loop of `connWasm.Read` (net.go 327-365), one iteration per unit of
`fuel`; `none` when the fuel runs out. `now` is the reading of `time.Now()`.
With `atSelect` the loop is entered at the `select` of a `Read` that was parked
there without a timer. The `select` takes the receiver case when the channel is
ready; when it is not, an armed timer fires (`timeout`), and without a timer
the goroutine stays parked. -/
def connWasm.Read_loop : Nat → Bool → World → connWasm → Bytes → Time → Option (ConnResult ReadRet)
  | 0, _, _, _, _, _ => none
  | fuel + 1, atSelect, w, c, b, now =>
    match atSelect, c.buffer with
    | false, head :: rest =>
      let (b1, copyLen) := copy b head
      let c1 := if head.length = copyLen then { c with buffer := rest }
                else { c with buffer := head.drop copyLen :: rest }
      some (.ret w c1 { b := b1, n := copyLen, err := none })
    | _, _ =>
      let c1 := if atSelect then c else c.expire now
      let timer : Bool := !atSelect && c1.deadline != 0
      match recvOn w.receiverChans c1.receiver with
      | .closed => some (.ret w c1 { b := b, n := 0, err := some .EOF })
      | .value data ch _ =>
        let w1 := { w with receiverChans := w.receiverChans.set c1.receiver ch }
        match data with
        | none => connWasm.Read_loop fuel false w1 c1 b now
        | some d =>
          connWasm.Read_loop fuel false w1 { c1 with buffer := c1.buffer ++ [d], deadline := 0 } b now
      | .wouldBlock =>
        if timer then some (.ret w c1 { b := b, n := 0, err := some (.errorf "timeout" []) })
        else some (.blocked w c1)

/-- Number of values a receiver will still get from channel `id`. -/
def pendingCount {α : Type} (chans : List (Chan α)) (id : Nat) : Nat :=
  match chans[id]? with
  | some ch => ch.pending.length
  | none => 0

/-- `connWasm.Read` (net.go 326-366) called at time `now` with the buffer `b`.
The fuel covers every value waiting in the channel. -/
def connWasm.Read (w : World) (c : connWasm) (b : Bytes) (now : Time) : Option (ConnResult ReadRet) :=
  connWasm.Read_loop (pendingCount w.receiverChans c.receiver + 2) false w c b now

/-- A `Read` parked at its `select` without a timer goes on after an event on
the channel. -/
def connWasm.Read_resume (w : World) (c : connWasm) (b : Bytes) (now : Time) :
    Option (ConnResult ReadRet) :=
  connWasm.Read_loop (pendingCount w.receiverChans c.receiver + 2) true w c b now

/-- `connWasm.Write` (net.go 371-376); `hostRet` is what the bridge call `write`
returns. The result is `(n, err)`. -/
def connWasm.Write (w : World) (c : connWasm) (b : Bytes) (hostRet : JsValue) :
    ConnResult (Nat × Option GoError) :=
  let w1 := { w with calls := w.calls ++ [.write c.localAddr.port (EncodeToString b)] }
  match checkJsError hostRet with
  | .err e => .ret w1 c (0, some e)
  | .panic msg => .panic msg
  | .nil => .ret w1 c (b.length, none)

/-- `connWasm.Close` (net.go 380-385); `hostRet` is what the bridge call `close`
returns. The result is the error returned. -/
def connWasm.Close (w : World) (c : connWasm) (hostRet : JsValue) : ConnResult (Option GoError) :=
  let w1 := { w with calls := w.calls ++ [.close c.localAddr.port] }
  match checkJsError hostRet with
  | .err e => .ret w1 c (some e)
  | .panic msg => .panic msg
  | .nil => .ret w1 c none

/-- `connWasm.LocalAddr`. -/
def connWasm.LocalAddr (c : connWasm) : addrWasm := c.localAddr

/-- `connWasm.RemoteAddr`. -/
def connWasm.RemoteAddr (c : connWasm) : addrWasm := c.remoteAddr

/-- `connWasm.SetDeadline` (net.go 400-404): stores `t`, then sends the nil
wake sentinel on the receiver channel. -/
def connWasm.SetDeadline (w : World) (c : connWasm) (t : Time) : ConnResult (Option GoError) :=
  let c1 := { c with deadline := t }
  match sendOn w.receiverChans c1.receiver none with
  | .panic => .panic "send on closed channel"
  | .sent ch => .ret { w with receiverChans := w.receiverChans.set c1.receiver ch } c1 none
  | .parked ch => .blocked { w with receiverChans := w.receiverChans.set c1.receiver ch } c1

/-- `connWasm.SetReadDeadline` (net.go 409-412). -/
def connWasm.SetReadDeadline (c : connWasm) (t : Time) : connWasm × Option GoError :=
  ({ c with deadline := t }, none)

/-- `connWasm.SetWriteDeadline` (net.go 417-419). -/
def connWasm.SetWriteDeadline (c : connWasm) (_t : Time) : connWasm × Option GoError :=
  (c, none)

/-- `addrWasm.Network`. -/
def addrWasm.Network (_a : addrWasm) : String := "wasm"

/-- `addrWasm.String`. -/
def addrWasm.String (a : addrWasm) : String := "localhost:" ++ toString a.port

/-! ## Runs of one connection, and reachable states -/

/-- An event on one open connection: the host delivers `data` through the
`receiver` callback, the application calls `SetDeadline t`, or it calls `Read`
with the buffer `b` at time `now`. -/
inductive StreamEvent where
  | deliver (data : String)
  | wake (t : Time)
  | read (b : Bytes) (now : Time)
  deriving DecidableEq, Repr

/-- The state of a run on one connection: the package state, the connection,
the bytes the `Read` calls have returned so far, and whether a call panicked. -/
structure Stream where
  w : World
  c : connWasm
  got : Bytes
  crashed : Bool
  deriving DecidableEq, Repr

/-- One event of a run; `a0` is the port argument the host passes to
`receiver`. A callback or `SetDeadline` that parks in its send leaves its value
with the channel. A `Read` that returns `(n, err)` contributes `b[:n]`; a `Read`
that stays parked is taken up again by the next `read` event. -/
def Stream.step (a0 : Int) (s : Stream) (e : StreamEvent) : Stream :=
  if s.crashed then s
  else
    match e with
    | .deliver data =>
      match receiver s.w a0 data with
      | .ret w _ => { s with w := w }
      | .err w _ => { s with w := w }
      | .blocked w => { s with w := w }
      | .panic _ => { s with crashed := true }
    | .wake t =>
      match s.c.SetDeadline s.w t with
      | .ret w c _ => { s with w := w, c := c }
      | .blocked w c => { s with w := w, c := c }
      | .panic _ => { s with crashed := true }
    | .read b now =>
      match s.c.Read s.w b now with
      | some (.ret w c r) => { s with w := w, c := c, got := s.got ++ r.b.take r.n }
      | some (.blocked w c) => { s with w := w, c := c }
      | some (.panic _) => { s with crashed := true }
      | none => { s with crashed := true }

/-- A run: the events one after the other. -/
def Stream.run (a0 : Int) (s : Stream) (evs : List StreamEvent) : Stream :=
  evs.foldl (Stream.step a0) s

/-- The concatenation of the payloads the events deliver, in their order. A
payload that is not base64 is refused by `receiver` and delivers nothing. -/
def deliveredBytes : List StreamEvent → Bytes
  | [] => []
  | .deliver data :: evs => (DecodeString data).getD [] ++ deliveredBytes evs
  | .wake _ :: evs => deliveredBytes evs
  | .read _ _ :: evs => deliveredBytes evs

/-- The `read` events for a list of buffers and times. -/
def readEvents (bufs : List (Bytes × Time)) : List StreamEvent :=
  bufs.map (fun x => StreamEvent.read x.1 x.2)

/-- The payload fragments a connection has not handed out yet: its fragment
queue, then the payloads waiting in its channel (wake sentinels left out). -/
def fragments (w : World) (c : connWasm) : List Bytes :=
  c.buffer ++
    (match w.receiverChans[c.receiver]? with
     | some ch => ch.pending.filterMap id
     | none => [])

/-- The runtime keeps a sender parked only while the buffer is full. -/
def Chan.WF {α : Type} (ch : Chan α) : Prop := ch.sendq = [] ∨ ch.cap ≤ ch.buf.length

/-- The state a call leaves behind, when it does not panic. -/
def Result.world? {α : Type} : Result α → Option World
  | .ret w _ => some w
  | .err w _ => some w
  | .blocked w => some w
  | .panic _ => none

/-- The state `Dialer` leaves behind, when it neither panics nor spins. -/
def DialResult.world? : DialResult → Option World
  | .failed w _ => some w
  | .waiting w _ _ => some w
  | .connected w _ => some w
  | .spinning => none
  | .panic _ => none

/-- The state a method of a connection leaves behind, when it does not panic. -/
def ConnResult.world? {α : Type} : ConnResult α → Option World
  | .ret w _ _ => some w
  | .blocked w _ => some w
  | .panic _ => none

/-- One call of the package, by the host or by the application, with any
arguments and any answer of the bridge. -/
inductive Step : World → World → Prop where
  | acceptor (w w1 : World) (a0 a1 a2 : Int) :
    (acceptor w a0 a1 a2).world? = some w1 → Step w w1
  | connectReply (w w1 : World) (a0 a1 a2 : Int) (err : JsValue) :
    (connectReply w a0 a1 a2 err).world? = some w1 → Step w w1
  | receiver (w w1 : World) (a0 : Int) (data : String) :
    (receiver w a0 data).world? = some w1 → Step w w1
  | closer (w w1 : World) (a0 : Int) :
    (closer w a0).world? = some w1 → Step w w1
  | dial (w w1 : World) (target : String) (draws : List Nat) (hostRet : JsValue) :
    (Dialer w target draws hostRet).world? = some w1 → Step w w1
  | dialResume (w w1 : World) (key connector : Nat) :
    (Dialer_resume w key connector).world? = some w1 → Step w w1
  | listen (w w1 : World) (port : Nat) (hostRet : JsValue) :
    (Listen w port hostRet).world? = some w1 → Step w w1
  | accept (w w1 : World) (l : listenerWasm) :
    (l.Accept w).world? = some w1 → Step w w1
  | closeListener (w w1 : World) (l : listenerWasm) (hostRet : JsValue) :
    (l.Close w hostRet).world? = some w1 → Step w w1
  | read (w w1 : World) (c : connWasm) (b : Bytes) (now : Time) (r : ConnResult ReadRet) :
    c.Read w b now = some r → r.world? = some w1 → Step w w1
  | readResume (w w1 : World) (c : connWasm) (b : Bytes) (now : Time) (r : ConnResult ReadRet) :
    c.Read_resume w b now = some r → r.world? = some w1 → Step w w1
  | write (w w1 : World) (c : connWasm) (b : Bytes) (hostRet : JsValue) :
    (c.Write w b hostRet).world? = some w1 → Step w w1
  | closeConn (w w1 : World) (c : connWasm) (hostRet : JsValue) :
    (c.Close w hostRet).world? = some w1 → Step w w1
  | setDeadline (w w1 : World) (c : connWasm) (t : Time) :
    (c.SetDeadline w t).world? = some w1 → Step w w1

/-- The states the package can be in: the initial one and those that calls lead to. -/
inductive Reachable : World → Prop where
  | init : Reachable World.init
  | step (w w1 : World) : Reachable w → Step w w1 → Reachable w1

/-- The connection of a run is open: no call has panicked, the port the host
addresses is registered to the channel of the connection, and that channel has
not been closed. -/
def Stream.Open (a0 : Int) (s : Stream) : Prop :=
  s.crashed = false ∧ mapGet s.w.receivers (uint16 a0) = some s.c.receiver ∧
    ∃ ch, s.w.receiverChans[s.c.receiver]? = some ch ∧ ch.closed = false ∧ ch.WF

/-- The bytes a connection has not handed out yet. -/
def unread (s : Stream) : Bytes := (fragments s.w s.c).flatten

/-- The state after `Listen(7000)`, the callback `acceptor(7000, 42, 99)` and
`Accept`: port 7000 is listening and one connection is open on local port 42. -/
def openWorld : World :=
  { accepterChans := [Chan.make 0], connectorChans := [],
    receiverChans := [Chan.make RECEIVER_BUFFERS],
    accepters := [(7000, 0)], accepterMtx := false, connectors := [],
    receivers := [(42, 0)], calls := [.listen 7000] }

/-- The connection that `Accept` returned in `openWorld`. -/
def openConn : connWasm :=
  { localAddr := newAddr 42, remoteAddr := newAddr 99, deadline := 0, receiver := 0, buffer := [] }

/-- The correlation registry is in order: every entry names an existing
channel, and no two keys name the same channel. -/
def World.connectorsOk (w : World) : Prop :=
  (∀ k ch, mapGet w.connectors k = some ch → ch < w.connectorChans.length) ∧
    (∀ k1 k2 ch, mapGet w.connectors k1 = some ch → mapGet w.connectors k2 = some ch → k1 = k2)

/-- How a call may change the correlation registry: it leaves the number of
channels and removes entries at most, or it adds one channel and registers it
under a key. -/
def KeyStep (w w1 : World) : Prop :=
  (w1.connectorChans.length = w.connectorChans.length ∧
      ∀ k ch, mapGet w1.connectors k = some ch → mapGet w.connectors k = some ch) ∨
    (∃ key, w1.connectorChans.length = w.connectorChans.length + 1 ∧
      w1.connectors = mapSet w.connectors key w.connectorChans.length)

/-- The state with two dials in flight: from the initial state, `Dialer` on
"localhost:8080" drew key 7, then `Dialer` on "localhost:9090" drew 7 again,
found it taken, and drew 9. -/
def twoDials : World :=
  { World.init with connectorChans := [Chan.make 0, Chan.make 0],
                    connectors := [(9, 1), (7, 0)],
                    calls := [.connect 7 8080, .connect 9 9090] }

/-- The target consists of the fixed host name `localhost`, a colon, and the
decimal digits `digits` (one or more). -/
def isLocalTarget (target : String) (digits : List Char) : Prop :=
  target.toList = "localhost:".toList ++ digits ∧ digits.length ≠ 0 ∧
    ∀ c ∈ digits, isDigit c = true

instance (target : String) (digits : List Char) : Decidable (isLocalTarget target digits) := by
  unfold isLocalTarget
  exact inferInstance

/-! ## Maps and channels -/

theorem mapGet_mapDelete (m : List (Nat × Nat)) (k k1 : Nat) :
    mapGet (mapDelete m k) k1 = if k1 = k then none else mapGet m k1 := by
  induction m with
  | nil => simp [mapDelete, mapGet]
  | cons e m ih =>
    obtain ⟨a, v⟩ := e
    by_cases h : a = k
    · subst h
      simp only [mapDelete, if_true, ih, mapGet]
      by_cases h1 : k1 = a
      · simp [h1]
      · have : ¬ a = k1 := fun h2 => h1 h2.symm
        simp [h1, this]
    · simp only [mapDelete, h, if_false, mapGet, ih]
      by_cases h1 : a = k1
      · subst h1; simp [h]
      · simp [h1]

theorem mapGet_mapSet (m : List (Nat × Nat)) (k v k1 : Nat) :
    mapGet (mapSet m k v) k1 = if k1 = k then some v else mapGet m k1 := by
  unfold mapSet
  by_cases h : k1 = k
  · subst h; simp [mapGet]
  · have h1 : ¬ k = k1 := fun h2 => h h2.symm
    simp [mapGet, h, h1, mapGet_mapDelete]

theorem Chan.recv_of_pending_nil {α : Type} (ch : Chan α) (h : ch.pending = []) :
    ch.recv = if ch.closed then RecvResult.closed else RecvResult.wouldBlock := by
  unfold Chan.pending at h
  have h1 : ch.buf = [] := (List.append_eq_nil.mp h).1
  have h2 : ch.sendq = [] := (List.append_eq_nil.mp h).2
  simp [Chan.recv, h1, h2]

theorem Chan.recv_of_pending_cons {α : Type} (ch : Chan α) (v : α) (rest : List α)
    (h : ch.pending = v :: rest) :
    ∃ ch1 r, ch.recv = RecvResult.value v ch1 r ∧ ch1.pending = rest ∧
      ch1.closed = ch.closed ∧ ch1.cap = ch.cap ∧ (ch.WF → ch1.WF) := by
  obtain ⟨cap, buf, sendq, closed⟩ := ch
  simp only [Chan.pending] at h
  cases buf with
  | nil =>
    cases sendq with
    | nil => simp at h
    | cons s more =>
      simp only [List.nil_append, List.cons.injEq] at h
      obtain ⟨h1, h2⟩ := h
      subst h1 h2
      refine ⟨⟨cap, [], more, closed⟩, true, rfl, ?_, rfl, rfl, ?_⟩
      · simp [Chan.pending]
      · intro hwf
        rcases hwf with hwf | hwf
        · simp at hwf
        · right; simpa using hwf
  | cons x rest1 =>
    simp only [List.cons_append, List.cons.injEq] at h
    obtain ⟨h1, h2⟩ := h
    subst h1 h2
    cases sendq with
    | nil =>
      refine ⟨⟨cap, rest1, [], closed⟩, false, rfl, ?_, rfl, rfl, ?_⟩
      · simp [Chan.pending]
      · intro _; left; rfl
    | cons s more =>
      refine ⟨⟨cap, rest1 ++ [s], more, closed⟩, true, rfl, ?_, rfl, rfl, ?_⟩
      · simp [Chan.pending]
      · intro hwf
        rcases hwf with hwf | hwf
        · simp at hwf
        · right; simpa using hwf

theorem Chan.send_open {α : Type} (ch : Chan α) (v : α) (hopen : ch.closed = false)
    (hwf : ch.WF) :
    ∃ ch1, (ch.send v = SendResult.sent ch1 ∨ ch.send v = SendResult.parked ch1) ∧
      ch1.pending = ch.pending ++ [v] ∧ ch1.closed = false ∧ ch1.cap = ch.cap ∧ ch1.WF := by
  obtain ⟨cap, buf, sendq, closed⟩ := ch
  simp only at hopen
  subst hopen
  by_cases hroom : buf.length < cap
  · have hs : sendq = [] := by
      rcases hwf with hwf | hwf
      · exact hwf
      · simp only at hwf; omega
    subst hs
    refine ⟨⟨cap, buf ++ [v], [], false⟩, Or.inl ?_, ?_, rfl, rfl, Or.inl rfl⟩
    · simp [Chan.send, hroom]
    · simp [Chan.pending]
  · refine ⟨⟨cap, buf, sendq ++ [v], false⟩, Or.inr ?_, ?_, rfl, rfl, Or.inr ?_⟩
    · simp [Chan.send, hroom]
    · simp [Chan.pending]
    · simp only; omega

/-! ## The loop of `Read` -/

theorem Read_loop_buffer (fuel : Nat) (w : World) (c : connWasm) (b : Bytes) (now : Time)
    (head : Bytes) (rest : List Bytes) (h : c.buffer = head :: rest) :
    connWasm.Read_loop (fuel + 1) false w c b now =
      some (.ret w
        (if head.length = (copy b head).2 then { c with buffer := rest }
         else { c with buffer := head.drop (copy b head).2 :: rest })
        { b := (copy b head).1, n := (copy b head).2, err := none }) := by
  simp [connWasm.Read_loop, h]

theorem expire_receiver (c : connWasm) (now : Time) : (c.expire now).receiver = c.receiver := by
  unfold connWasm.expire; split <;> rfl

theorem expire_buffer (c : connWasm) (now : Time) : (c.expire now).buffer = c.buffer := by
  unfold connWasm.expire; split <;> rfl

theorem expire_localAddr (c : connWasm) (now : Time) : (c.expire now).localAddr = c.localAddr := by
  unfold connWasm.expire; split <;> rfl

theorem expire_remoteAddr (c : connWasm) (now : Time) :
    (c.expire now).remoteAddr = c.remoteAddr := by
  unfold connWasm.expire; split <;> rfl

theorem Read_loop_empty (fuel : Nat) (w : World) (c : connWasm) (b : Bytes) (now : Time)
    (h : c.buffer = []) :
    connWasm.Read_loop (fuel + 1) false w c b now =
      match recvOn w.receiverChans c.receiver with
      | .closed => some (.ret w (c.expire now) { b := b, n := 0, err := some .EOF })
      | .value none ch _ =>
        connWasm.Read_loop fuel false
          { w with receiverChans := w.receiverChans.set c.receiver ch } (c.expire now) b now
      | .value (some d) ch _ =>
        connWasm.Read_loop fuel false
          { w with receiverChans := w.receiverChans.set c.receiver ch }
          { c.expire now with buffer := [d], deadline := 0 } b now
      | .wouldBlock =>
        if (c.expire now).deadline ≠ 0 then
          some (.ret w (c.expire now) { b := b, n := 0, err := some (.errorf "timeout" []) })
        else some (.blocked w (c.expire now)) := by
  simp only [connWasm.Read_loop, h]
  have e1 := expire_receiver c now
  have e2 : (c.expire now).buffer = [] := by rw [expire_buffer, h]
  generalize c.expire now = c1 at e1 e2 ⊢
  obtain ⟨la, ra, dl, rc, bf⟩ := c1
  simp only at e1 e2
  subst e1 e2
  cases hr : recvOn w.receiverChans c.receiver with
  | closed => simp [hr]
  | wouldBlock => simp [hr]
  | value data ch r =>
    cases data with
    | none => simp [hr]
    | some d => simp [hr]

theorem Read_loop_atSelect (fuel : Nat) (w : World) (c : connWasm) (b : Bytes) (now : Time) :
    connWasm.Read_loop (fuel + 1) true w c b now =
      match recvOn w.receiverChans c.receiver with
      | .closed => some (.ret w c { b := b, n := 0, err := some .EOF })
      | .value none ch _ =>
        connWasm.Read_loop fuel false
          { w with receiverChans := w.receiverChans.set c.receiver ch } c b now
      | .value (some d) ch _ =>
        connWasm.Read_loop fuel false
          { w with receiverChans := w.receiverChans.set c.receiver ch }
          { c with buffer := c.buffer ++ [d], deadline := 0 } b now
      | .wouldBlock => some (.blocked w c) := by
  simp only [connWasm.Read_loop]
  cases hr : recvOn w.receiverChans c.receiver with
  | closed => simp [hr]
  | wouldBlock => simp [hr]
  | value data ch r =>
    cases data with
    | none => simp [hr]
    | some d => simp [hr]

theorem fragments_eq (w : World) (c : connWasm) (ch : Chan (Option Bytes))
    (hch : w.receiverChans[c.receiver]? = some ch) :
    fragments w c = c.buffer ++ ch.pending.filterMap id := by
  simp [fragments, hch]

theorem Read_frag_buffer (w : World) (c : connWasm) (b : Bytes) (now : Time)
    (ch : Chan (Option Bytes)) (fuel : Nat) (head : Bytes) (rest0 : List Bytes)
    (hch : w.receiverChans[c.receiver]? = some ch) (hb : c.buffer = head :: rest0) :
    ∃ res w1 c1 ch1, connWasm.Read_loop (fuel + 1) false w c b now = some res ∧
      w1.receivers = w.receivers ∧ w1.receiverChans[c.receiver]? = some ch1 ∧
      ch1.closed = ch.closed ∧ (ch.WF → ch1.WF) ∧ c1.receiver = c.receiver ∧
      (∀ hd rest, fragments w c = hd :: rest →
          res = .ret w1 c1 ⟨(copy b hd).1, (copy b hd).2, none⟩ ∧
          fragments w1 c1 =
            if hd.length = (copy b hd).2 then rest else hd.drop (copy b hd).2 :: rest) ∧
      (fragments w c = [] →
          fragments w1 c1 = [] ∧ (res = .blocked w1 c1 ∨ ∃ e, res = .ret w1 c1 ⟨b, 0, some e⟩)) := by
  refine ⟨_, w,
    (if head.length = (copy b head).2 then { c with buffer := rest0 }
     else { c with buffer := head.drop (copy b head).2 :: rest0 }),
    ch, Read_loop_buffer fuel w c b now head rest0 hb, rfl, hch, rfl,
    fun h => h, ?_, ?_, ?_⟩
  · split <;> rfl
  · intro hd rest hfr
    rw [fragments_eq w c ch hch, hb] at hfr
    simp only [List.cons_append, List.cons.injEq] at hfr
    obtain ⟨h1, h2⟩ := hfr
    subst h1
    refine ⟨rfl, ?_⟩
    by_cases hlen : head.length = (copy b head).2
    · rw [if_pos hlen, if_pos hlen, fragments_eq w _ ch (by simpa using hch)]
      simpa using h2
    · rw [if_neg hlen, if_neg hlen, fragments_eq w _ ch (by simpa using hch)]
      simp [h2]
  · intro hfr
    rw [fragments_eq w c ch hch, hb] at hfr
    simp at hfr

theorem recvOn_eq {α : Type} (chans : List (Chan α)) (id : Nat) (ch : Chan α)
    (hch : chans[id]? = some ch) : recvOn chans id = ch.recv := by
  simp [recvOn, hch]

theorem getElem?_set_of_some {α : Type} (chans : List α) (id : Nat) (ch ch1 : α)
    (hch : chans[id]? = some ch) : (chans.set id ch1)[id]? = some ch1 := by
  obtain ⟨hlt, _⟩ := List.getElem?_eq_some.mp hch
  exact List.getElem?_set_self hlt

theorem Read_loop_frag (n : Nat) : ∀ (w : World) (c : connWasm) (b : Bytes) (now : Time)
    (ch : Chan (Option Bytes)) (fuel : Nat),
    w.receiverChans[c.receiver]? = some ch → ch.pending.length = n → n + 2 ≤ fuel →
    ∃ res w1 c1 ch1, connWasm.Read_loop fuel false w c b now = some res ∧
      w1.receivers = w.receivers ∧ w1.receiverChans[c.receiver]? = some ch1 ∧
      ch1.closed = ch.closed ∧ (ch.WF → ch1.WF) ∧ c1.receiver = c.receiver ∧
      (∀ hd rest, fragments w c = hd :: rest →
          res = .ret w1 c1 ⟨(copy b hd).1, (copy b hd).2, none⟩ ∧
          fragments w1 c1 =
            if hd.length = (copy b hd).2 then rest else hd.drop (copy b hd).2 :: rest) ∧
      (fragments w c = [] →
          fragments w1 c1 = [] ∧ (res = .blocked w1 c1 ∨ ∃ e, res = .ret w1 c1 ⟨b, 0, some e⟩)) := by
  induction n with
  | zero =>
    intro w c b now ch fuel hch hn hfuel
    obtain ⟨fuel, rfl⟩ : ∃ f, fuel = f + 1 := ⟨fuel - 1, by omega⟩
    cases hb : c.buffer with
    | cons head rest0 => exact Read_frag_buffer w c b now ch fuel head rest0 hch hb
    | nil =>
      have hp : ch.pending = [] := List.length_eq_zero.mp hn
      have hfr : fragments w c = [] := by rw [fragments_eq w c ch hch, hb, hp]; rfl
      have hch1 : w.receiverChans[(c.expire now).receiver]? = some ch := by
        rw [expire_receiver]; exact hch
      have hfr1 : fragments w (c.expire now) = [] := by
        rw [fragments_eq w _ ch hch1, expire_buffer, hb, hp]; rfl
      rw [Read_loop_empty fuel w c b now hb, recvOn_eq _ _ ch hch, Chan.recv_of_pending_nil ch hp]
      by_cases hcl : ch.closed = true
      · refine ⟨_, w, c.expire now, ch, by rw [if_pos hcl], rfl, hch, rfl, id,
          expire_receiver c now, ?_, ?_⟩
        · intro hd rest h; rw [hfr] at h; simp at h
        · intro _; exact ⟨hfr1, Or.inr ⟨_, rfl⟩⟩
      · by_cases hdl : (c.expire now).deadline ≠ 0
        · refine ⟨_, w, c.expire now, ch, by rw [if_neg hcl]; simp only; rw [if_pos hdl], rfl,
            hch, rfl, id, expire_receiver c now, ?_, ?_⟩
          · intro hd rest h; rw [hfr] at h; simp at h
          · intro _; exact ⟨hfr1, Or.inr ⟨_, rfl⟩⟩
        · refine ⟨_, w, c.expire now, ch, by rw [if_neg hcl]; simp only; rw [if_neg hdl], rfl,
            hch, rfl, id, expire_receiver c now, ?_, ?_⟩
          · intro hd rest h; rw [hfr] at h; simp at h
          · intro _; exact ⟨hfr1, Or.inl rfl⟩
  | succ n ih =>
    intro w c b now ch fuel hch hn hfuel
    obtain ⟨fuel, rfl⟩ : ∃ f, fuel = f + 1 := ⟨fuel - 1, by omega⟩
    cases hb : c.buffer with
    | cons head rest0 => exact Read_frag_buffer w c b now ch fuel head rest0 hch hb
    | nil =>
      obtain ⟨v, rest, hp⟩ : ∃ v rest, ch.pending = v :: rest := by
        cases hpp : ch.pending with
        | nil => rw [hpp] at hn; simp at hn
        | cons v rest => exact ⟨v, rest, rfl⟩
      have hrest : rest.length = n := by rw [hp] at hn; simpa using hn
      obtain ⟨ch1, r, hrecv, hp1, hcl1, _, hwf1⟩ := Chan.recv_of_pending_cons ch v rest hp
      rw [Read_loop_empty fuel w c b now hb, recvOn_eq _ _ ch hch, hrecv]
      cases v with
      | none =>
        simp only
        have hchw : ({ w with receiverChans := w.receiverChans.set c.receiver ch1 } :
            World).receiverChans[(c.expire now).receiver]? = some ch1 := by
          rw [expire_receiver]; exact getElem?_set_of_some _ _ ch ch1 hch
        obtain ⟨res, w2, c2, ch2, hres, hrs, hch2, hcl2, hwf2, hrc2, hA, hB⟩ :=
          ih { w with receiverChans := w.receiverChans.set c.receiver ch1 } (c.expire now) b now
            ch1 fuel hchw (by rw [hp1]; exact hrest) (by omega)
        have hfeq : fragments { w with receiverChans := w.receiverChans.set c.receiver ch1 }
            (c.expire now) = fragments w c := by
          rw [fragments_eq _ _ ch1 hchw, fragments_eq w c ch hch, expire_buffer, hp, hp1]
          simp
        rw [hfeq] at hA hB
        rw [expire_receiver] at hch2 hrc2
        exact ⟨res, w2, c2, ch2, hres, hrs, hch2, hcl2.trans hcl1,
          fun h => hwf2 (hwf1 h), hrc2, hA, hB⟩
      | some d =>
        simp only
        obtain ⟨fuel, rfl⟩ : ∃ f, fuel = f + 1 := ⟨fuel - 1, by omega⟩
        have hchw : ({ w with receiverChans := w.receiverChans.set c.receiver ch1 } :
            World).receiverChans[({ c.expire now with buffer := [d], deadline := 0 } :
              connWasm).receiver]? = some ch1 := by
          simp only [expire_receiver]; exact getElem?_set_of_some _ _ ch ch1 hch
        obtain ⟨res, w2, c2, ch2, hres, hrs, hch2, hcl2, hwf2, hrc2, hA, hB⟩ :=
          Read_frag_buffer { w with receiverChans := w.receiverChans.set c.receiver ch1 }
            { c.expire now with buffer := [d], deadline := 0 } b now ch1 fuel d [] hchw rfl
        have hfeq : fragments { w with receiverChans := w.receiverChans.set c.receiver ch1 }
            { c.expire now with buffer := [d], deadline := 0 } = fragments w c := by
          rw [fragments_eq _ _ ch1 hchw, fragments_eq w c ch hch, hb, hp, hp1]
          simp
        rw [hfeq] at hA hB
        simp only [expire_receiver] at hch2 hrc2
        exact ⟨res, w2, c2, ch2, hres, hrs, hch2, hcl2.trans hcl1,
          fun h => hwf2 (hwf1 h), hrc2, hA, hB⟩

theorem Read_frag (w : World) (c : connWasm) (b : Bytes) (now : Time)
    (ch : Chan (Option Bytes)) (hch : w.receiverChans[c.receiver]? = some ch) :
    ∃ res w1 c1 ch1, c.Read w b now = some res ∧
      w1.receivers = w.receivers ∧ w1.receiverChans[c.receiver]? = some ch1 ∧
      ch1.closed = ch.closed ∧ (ch.WF → ch1.WF) ∧ c1.receiver = c.receiver ∧
      (∀ hd rest, fragments w c = hd :: rest →
          res = .ret w1 c1 ⟨(copy b hd).1, (copy b hd).2, none⟩ ∧
          fragments w1 c1 =
            if hd.length = (copy b hd).2 then rest else hd.drop (copy b hd).2 :: rest) ∧
      (fragments w c = [] →
          fragments w1 c1 = [] ∧ (res = .blocked w1 c1 ∨ ∃ e, res = .ret w1 c1 ⟨b, 0, some e⟩)) := by
  have hfuel : pendingCount w.receiverChans c.receiver = ch.pending.length := by
    simp [pendingCount, hch]
  unfold connWasm.Read
  rw [hfuel]
  exact Read_loop_frag ch.pending.length w c b now ch _ hch rfl (Nat.le_refl _)

/-! ## Runs of one connection -/

theorem copy_take (b hd : Bytes) : (copy b hd).1.take (copy b hd).2 = hd.take (copy b hd).2 := by
  simp only [copy]
  rw [List.take_append_of_le_length (by simp)]
  simp

theorem copy_le (b hd : Bytes) : (copy b hd).2 ≤ b.length ∧ (copy b hd).2 ≤ hd.length := by
  simp only [copy]
  omega

theorem Stream.step_read (a0 : Int) (s : Stream) (b : Bytes) (now : Time)
    (hs : Stream.Open a0 s) :
    Stream.Open a0 (Stream.step a0 s (.read b now)) ∧
      (Stream.step a0 s (.read b now)).got ++ unread (Stream.step a0 s (.read b now)) =
        s.got ++ unread s ∧
      (fragments s.w s.c = [] → fragments (Stream.step a0 s (.read b now)).w
          (Stream.step a0 s (.read b now)).c = []) ∧
      (∀ hd rest, fragments s.w s.c = hd :: rest →
        fragments (Stream.step a0 s (.read b now)).w (Stream.step a0 s (.read b now)).c =
          if hd.length = (copy b hd).2 then rest else hd.drop (copy b hd).2 :: rest) := by
  obtain ⟨hcr, hreg, ch, hch, hopen, hwf⟩ := hs
  obtain ⟨res, w1, c1, ch1, hres, hrs, hch1, hcl1, hwf1, hrc1, hA, hB⟩ :=
    Read_frag s.w s.c b now ch hch
  cases hfr : fragments s.w s.c with
  | nil =>
    obtain ⟨hfr1, hres1⟩ := hB hfr
    have hstep : Stream.step a0 s (.read b now) = { s with w := w1, c := c1 } := by
      rcases hres1 with h | ⟨e, h⟩
      · subst h; simp [Stream.step, hcr, hres]
      · subst h; simp [Stream.step, hcr, hres]
    rw [hstep]
    refine ⟨⟨hcr, by simpa [hrs, hrc1] using hreg, ch1, by simpa [hrc1] using hch1,
      by rw [hcl1]; exact hopen, hwf1 hwf⟩, ?_, fun _ => hfr1, ?_⟩
    · simp [unread, hfr1, hfr]
    · intro hd rest h; simp at h
  | cons hd rest =>
    obtain ⟨hres1, hfr1⟩ := hA hd rest hfr
    subst hres1
    have hstep : Stream.step a0 s (.read b now) =
        { s with w := w1, c := c1, got := s.got ++ hd.take (copy b hd).2 } := by
      simp [Stream.step, hcr, hres, copy_take]
    rw [hstep]
    refine ⟨⟨hcr, by simpa [hrs, hrc1] using hreg, ch1, by simpa [hrc1] using hch1,
      by rw [hcl1]; exact hopen, hwf1 hwf⟩, ?_, ?_, ?_⟩
    · simp only [unread, hfr1, hfr]
      by_cases hlen : hd.length = (copy b hd).2
      · rw [if_pos hlen, ← hlen]; simp
      · rw [if_neg hlen]
        simp only [List.flatten_cons, List.append_assoc]
        rw [← List.append_assoc (hd.take _), List.take_append_drop]
    · intro h; simp at h
    · intro hd1 rest1 h
      simp only [List.cons.injEq] at h
      obtain ⟨h1, h2⟩ := h
      subst h1 h2
      exact hfr1

theorem sendOn_eq {α : Type} (chans : List (Chan α)) (id : Nat) (ch : Chan α) (v : α)
    (hch : chans[id]? = some ch) : sendOn chans id v = ch.send v := by
  simp [sendOn, hch]

theorem Stream.step_deliver (a0 : Int) (s : Stream) (data : String) (hs : Stream.Open a0 s) :
    Stream.Open a0 (Stream.step a0 s (.deliver data)) ∧
      (Stream.step a0 s (.deliver data)).got = s.got ∧
      fragments (Stream.step a0 s (.deliver data)).w (Stream.step a0 s (.deliver data)).c =
        fragments s.w s.c ++ (DecodeString data).toList := by
  obtain ⟨hcr, hreg, ch, hch, hopen, hwf⟩ := hs
  cases hdec : DecodeString data with
  | none =>
    have hstep : Stream.step a0 s (.deliver data) = s := by
      simp only [Stream.step, hcr, receiver, hreg, hdec]
      obtain ⟨w, c, got, crashed⟩ := s
      simp only at hcr
      subst hcr
      rfl
    rw [hstep]
    exact ⟨⟨hcr, hreg, ch, hch, hopen, hwf⟩, rfl, by simp⟩
  | some d =>
    obtain ⟨ch1, hsend, hp1, hcl1, _, hwf1⟩ := Chan.send_open ch (some d) hopen hwf
    have hstep : Stream.step a0 s (.deliver data) =
        { s with w := { s.w with receiverChans := s.w.receiverChans.set s.c.receiver ch1 } } := by
      rcases hsend with h | h <;>
        simp [Stream.step, hcr, receiver, hreg, hdec, sendOn_eq _ _ ch _ hch, h]
    rw [hstep]
    have hch1 := getElem?_set_of_some s.w.receiverChans s.c.receiver ch ch1 hch
    refine ⟨⟨hcr, hreg, ch1, hch1, hcl1, hwf1⟩, rfl, ?_⟩
    rw [fragments_eq _ _ ch1 hch1, fragments_eq _ _ ch hch, hp1]
    simp

theorem Stream.step_wake (a0 : Int) (s : Stream) (t : Time) (hs : Stream.Open a0 s) :
    Stream.Open a0 (Stream.step a0 s (.wake t)) ∧
      (Stream.step a0 s (.wake t)).got = s.got ∧
      fragments (Stream.step a0 s (.wake t)).w (Stream.step a0 s (.wake t)).c =
        fragments s.w s.c := by
  obtain ⟨hcr, hreg, ch, hch, hopen, hwf⟩ := hs
  obtain ⟨ch1, hsend, hp1, hcl1, _, hwf1⟩ := Chan.send_open ch none hopen hwf
  have hstep : Stream.step a0 s (.wake t) =
      { s with w := { s.w with receiverChans := s.w.receiverChans.set s.c.receiver ch1 },
               c := { s.c with deadline := t } } := by
    rcases hsend with h | h <;>
      simp [Stream.step, hcr, connWasm.SetDeadline, sendOn_eq _ _ ch _ hch, h]
  rw [hstep]
  have hch1 := getElem?_set_of_some s.w.receiverChans s.c.receiver ch ch1 hch
  refine ⟨⟨hcr, hreg, ch1, hch1, hcl1, hwf1⟩, rfl, ?_⟩
  rw [fragments_eq _ _ ch1 hch1, fragments_eq _ _ ch hch, hp1]
  simp

/-- Every event keeps the connection open and keeps the bytes in order: what
has been read, followed by what is still queued, is what was there before
followed by what the event delivers. No event adds more than one fragment. -/
theorem Stream.step_fidelity (a0 : Int) (s : Stream) (e : StreamEvent) (hs : Stream.Open a0 s) :
    Stream.Open a0 (Stream.step a0 s e) ∧
      (Stream.step a0 s e).got ++ unread (Stream.step a0 s e) =
        s.got ++ unread s ++ deliveredBytes [e] ∧
      (fragments (Stream.step a0 s e).w (Stream.step a0 s e).c).length ≤
        (fragments s.w s.c).length + 1 := by
  cases e with
  | deliver data =>
    obtain ⟨h1, h2, h3⟩ := Stream.step_deliver a0 s data hs
    refine ⟨h1, ?_, ?_⟩
    · rw [h2]
      simp only [unread, h3, deliveredBytes]
      cases DecodeString data <;> simp
    · rw [h3]
      cases DecodeString data <;> simp
  | wake t =>
    obtain ⟨h1, h2, h3⟩ := Stream.step_wake a0 s t hs
    refine ⟨h1, ?_, ?_⟩
    · rw [h2]; simp [unread, h3, deliveredBytes]
    · rw [h3]; omega
  | read b now =>
    obtain ⟨h1, h2, h3, h4⟩ := Stream.step_read a0 s b now hs
    refine ⟨h1, ?_, ?_⟩
    · rw [h2]; simp [deliveredBytes]
    · cases hfr : fragments s.w s.c with
      | nil => rw [h3 hfr]; simp
      | cons hd rest =>
        rw [h4 hd rest hfr]
        split <;> simp only [List.length_cons] <;> omega

theorem deliveredBytes_append (evs evs1 : List StreamEvent) :
    deliveredBytes (evs ++ evs1) = deliveredBytes evs ++ deliveredBytes evs1 := by
  induction evs with
  | nil => rfl
  | cons e evs ih => cases e <;> simp [deliveredBytes, ih]

theorem deliveredBytes_readEvents (bufs : List (Bytes × Time)) :
    deliveredBytes (readEvents bufs) = [] := by
  induction bufs with
  | nil => rfl
  | cons x bufs ih => simpa [readEvents, deliveredBytes] using ih

theorem Stream.run_fidelity (a0 : Int) (evs : List StreamEvent) :
    ∀ s : Stream, Stream.Open a0 s →
      Stream.Open a0 (Stream.run a0 s evs) ∧
        (Stream.run a0 s evs).got ++ unread (Stream.run a0 s evs) =
          s.got ++ unread s ++ deliveredBytes evs ∧
        (fragments (Stream.run a0 s evs).w (Stream.run a0 s evs).c).length ≤
          (fragments s.w s.c).length + evs.length := by
  induction evs with
  | nil => intro s hs; exact ⟨hs, by simp [Stream.run, deliveredBytes], by simp [Stream.run]⟩
  | cons e evs ih =>
    intro s hs
    obtain ⟨h1, h2, h3⟩ := Stream.step_fidelity a0 s e hs
    obtain ⟨g1, g2, g3⟩ := ih (Stream.step a0 s e) h1
    have hrun : Stream.run a0 s (e :: evs) = Stream.run a0 (Stream.step a0 s e) evs := rfl
    rw [hrun]
    refine ⟨g1, ?_, ?_⟩
    · rw [g2, h2]
      have := deliveredBytes_append [e] evs
      simp only [List.singleton_append] at this
      rw [this]
      simp
    · simp only [List.length_cons]; omega

theorem Stream.run_append (a0 : Int) (s : Stream) (evs evs1 : List StreamEvent) :
    Stream.run a0 s (evs ++ evs1) = Stream.run a0 (Stream.run a0 s evs) evs1 := by
  simp [Stream.run, List.foldl_append]

/-- A `Read` into a buffer that is not empty shortens what is queued: a byte or
more of the head fragment goes, or an empty head fragment goes. -/
theorem Stream.step_read_cost (a0 : Int) (s : Stream) (b : Bytes) (now : Time)
    (hs : Stream.Open a0 s) (hb : 1 ≤ b.length) :
    (unread (Stream.step a0 s (.read b now))).length +
        (fragments (Stream.step a0 s (.read b now)).w (Stream.step a0 s (.read b now)).c).length ≤
      (unread s).length + (fragments s.w s.c).length - 1 := by
  obtain ⟨_, _, h3, h4⟩ := Stream.step_read a0 s b now hs
  cases hfr : fragments s.w s.c with
  | nil => simp [unread, h3 hfr]
  | cons hd rest =>
    have hle := copy_le b hd
    have hn : (copy b hd).2 = min b.length hd.length := rfl
    simp only [unread, h4 hd rest hfr, hfr]
    by_cases hlen : hd.length = (copy b hd).2
    · rw [if_pos hlen]
      simp only [List.flatten_cons, List.length_append, List.length_cons]
      omega
    · rw [if_neg hlen]
      simp only [List.flatten_cons, List.length_append, List.length_cons, List.length_drop]
      omega

theorem Stream.run_reads_cost (a0 : Int) (bufs : List (Bytes × Time)) :
    ∀ s : Stream, Stream.Open a0 s → (∀ x ∈ bufs, 1 ≤ x.1.length) →
      (unread (Stream.run a0 s (readEvents bufs))).length +
          (fragments (Stream.run a0 s (readEvents bufs)).w
            (Stream.run a0 s (readEvents bufs)).c).length ≤
        (unread s).length + (fragments s.w s.c).length - bufs.length := by
  induction bufs with
  | nil => intro s _ _; simp [readEvents, Stream.run]
  | cons x bufs ih =>
    intro s hs hsz
    have hx : 1 ≤ x.1.length := hsz x (List.mem_cons_self _ _)
    have h1 := Stream.step_read_cost a0 s x.1 x.2 hs hx
    have hopen := (Stream.step_read a0 s x.1 x.2 hs).1
    have h2 := ih (Stream.step a0 s (.read x.1 x.2)) hopen
      (fun y hy => hsz y (List.mem_cons_of_mem _ hy))
    have hrun : Stream.run a0 s (readEvents (x :: bufs)) =
        Stream.run a0 (Stream.step a0 s (.read x.1 x.2)) (readEvents bufs) := rfl
    rw [hrun]
    simp only [List.length_cons]
    omega

/-! ## C1: byte-stream fidelity -/

/-- C1. On a connection that is open and fresh (its channel registered under the
port the host addresses, not closed, nothing queued), take any interleaving
`evs` of payload deliveries by the `receiver` callback, `SetDeadline` calls and
`Read` calls with any buffers. Then the bytes returned by the `Read` calls so
far, followed by the bytes still queued, are exactly the concatenation of the
delivered payloads in callback order; and once `Read` has been called often
enough with buffers of length at least 1, the bytes returned are exactly that
concatenation. No call panics. -/
theorem C1_byte_stream_fidelity (w : World) (c : connWasm) (a0 : Int)
    (ch : Chan (Option Bytes)) (evs : List StreamEvent) (bufs : List (Bytes × Time))
    (hreg : mapGet w.receivers (uint16 a0) = some c.receiver)
    (hch : w.receiverChans[c.receiver]? = some ch)
    (hfresh : ch.closed = false ∧ ch.buf = [] ∧ ch.sendq = [])
    (hbuf : c.buffer = [])
    (hsize : ∀ x ∈ bufs, 1 ≤ x.1.length)
    (hmany : (deliveredBytes evs).length + evs.length ≤ bufs.length) :
    (Stream.run a0 ⟨w, c, [], false⟩ evs).got ++ unread (Stream.run a0 ⟨w, c, [], false⟩ evs) =
        deliveredBytes evs ∧
      (Stream.run a0 ⟨w, c, [], false⟩ (evs ++ readEvents bufs)).got = deliveredBytes evs ∧
      (Stream.run a0 ⟨w, c, [], false⟩ (evs ++ readEvents bufs)).crashed = false := by
  obtain ⟨hopen, hb, hq⟩ := hfresh
  have hs : Stream.Open a0 ⟨w, c, [], false⟩ := ⟨rfl, hreg, ch, hch, hopen, Or.inl hq⟩
  have hfr0 : fragments w c = [] := by
    rw [fragments_eq w c ch hch, hbuf]
    simp [Chan.pending, hb, hq]
  obtain ⟨h1, h2, h3⟩ := Stream.run_fidelity a0 evs ⟨w, c, [], false⟩ hs
  have h2a : (Stream.run a0 ⟨w, c, [], false⟩ evs).got ++
      unread (Stream.run a0 ⟨w, c, [], false⟩ evs) = deliveredBytes evs := by
    rw [h2]; simp [unread, hfr0]
  have h3a : (fragments (Stream.run a0 ⟨w, c, [], false⟩ evs).w
      (Stream.run a0 ⟨w, c, [], false⟩ evs).c).length ≤ evs.length := by
    simpa [hfr0] using h3
  obtain ⟨g1, g2, _⟩ := Stream.run_fidelity a0 (readEvents bufs) _ h1
  have hcost := Stream.run_reads_cost a0 bufs _ h1 hsize
  have hlen : (unread (Stream.run a0 ⟨w, c, [], false⟩ evs)).length ≤
      (deliveredBytes evs).length := by
    have := congrArg List.length h2a
    simp only [List.length_append] at this
    omega
  have hzero : (unread (Stream.run a0 (Stream.run a0 ⟨w, c, [], false⟩ evs)
      (readEvents bufs))).length = 0 := by omega
  have hnil := List.length_eq_zero.mp hzero
  rw [Stream.run_append]
  refine ⟨h2a, ?_, g1.1⟩
  rw [hnil, deliveredBytes_readEvents, h2a] at g2
  simpa using g2

/-- C1, an instance: on the open connection of port 42, the payloads "hello"
and "hi" delivered around a first `Read`, then ten more `Read` calls. -/
theorem C1_byte_stream_fidelity_witness :
    (Stream.run 42 ⟨openWorld, openConn, [], false⟩
        ([.deliver "aGVsbG8=", .read [0, 0] 5, .deliver "aGk="] ++
          readEvents (List.replicate 10 ([0, 0, 0], 7)))).got =
      [104, 101, 108, 108, 111, 104, 105] :=
  (C1_byte_stream_fidelity openWorld openConn 42 (Chan.make RECEIVER_BUFFERS)
    [.deliver "aGVsbG8=", .read [0, 0] 5, .deliver "aGk="] (List.replicate 10 ([0, 0, 0], 7))
    (by decide) (by decide) (by decide) (by decide) (by decide) (by decide)).2.1

/-! ## C2: the end-to-end scenario -/

/-- C2. From the initial state: `Listen(7000)` succeeds; the callback
`acceptor(7000, 42, 99)` parks in its send until `Accept` takes the entry;
`Accept` returns a connection with local port 42 and remote port 99 (and the
callback has returned, the mutex is free); `receiver(42, "aGVsbG8=")` returns
nil; `Read` into any buffer of five bytes or more returns the five bytes
"hello"; `closer(42)` returns nil; the next `Read` returns `(0, io.EOF)`. -/
theorem C2_scenario (b : Bytes) (now : Time) (hb : 5 ≤ b.length) :
    ∃ w1 l w2 w3 c w4 w5 c5 r w6 w7 c7 r7,
      Listen World.init 7000 .null = .ret w1 l ∧
      acceptor w1 7000 42 99 = .blocked w2 ∧
      l.Accept w2 = .ret w3 c ∧ w3.accepterMtx = false ∧
      c.LocalAddr.port = 42 ∧ c.RemoteAddr.port = 99 ∧
      receiver w3 42 "aGVsbG8=" = .ret w4 .null ∧
      c.Read w4 b now = some (.ret w5 c5 r) ∧ r.err = none ∧ r.n = 5 ∧
      r.b.take r.n = [104, 101, 108, 108, 111] ∧
      closer w5 42 = .ret w6 .null ∧
      c5.Read w6 r.b now = some (.ret w7 c7 r7) ∧ r7.n = 0 ∧ r7.err = some .EOF := by
  have hmin : min b.length 5 = 5 := Nat.min_eq_right hb
  refine ⟨{ World.init with accepterChans := [Chan.make 0], accepters := [(7000, 0)],
                            calls := [.listen 7000] },
    { listenAddr := newAddr 7000, accepter := 0 },
    { openWorld with accepterChans := [⟨0, [], [⟨42, 99⟩], false⟩], accepterMtx := true,
                     receiverChans := [], receivers := [] },
    openWorld, openConn,
    { openWorld with receiverChans := [⟨10, [some [104, 101, 108, 108, 111]], [], false⟩] },
    openWorld, openConn,
    { b := ([104, 101, 108, 108, 111] : Bytes) ++ b.drop 5, n := 5, err := none },
    { openWorld with receiverChans := [⟨10, [], [], true⟩] },
    { openWorld with receiverChans := [⟨10, [], [], true⟩] }, openConn,
    { b := ([104, 101, 108, 108, 111] : Bytes) ++ b.drop 5, n := 0, err := some .EOF },
    rfl, rfl, rfl, rfl, rfl, rfl, rfl, ?_, rfl, rfl, ?_, rfl, ?_, rfl, rfl⟩
  · simp [connWasm.Read, pendingCount, connWasm.Read_loop, connWasm.expire, recvOn, Chan.recv,
      openConn, openWorld, copy, hmin, Chan.make, Chan.pending, RECEIVER_BUFFERS]
  · simp
  · simp [connWasm.Read, pendingCount, connWasm.Read_loop, connWasm.expire, recvOn, Chan.recv,
      openConn, openWorld, Chan.pending]

/-- C2, an instance: a buffer of eight bytes, read at time 100. -/
theorem C2_scenario_witness :
    ∃ w1 l w2 w3 c w4 w5 c5 r w6 w7 c7 r7,
      Listen World.init 7000 .null = .ret w1 l ∧
      acceptor w1 7000 42 99 = .blocked w2 ∧
      l.Accept w2 = .ret w3 c ∧ w3.accepterMtx = false ∧
      c.LocalAddr.port = 42 ∧ c.RemoteAddr.port = 99 ∧
      receiver w3 42 "aGVsbG8=" = .ret w4 .null ∧
      c.Read w4 (List.replicate 8 0) 100 = some (.ret w5 c5 r) ∧ r.err = none ∧ r.n = 5 ∧
      r.b.take r.n = [104, 101, 108, 108, 111] ∧
      closer w5 42 = .ret w6 .null ∧
      c5.Read w6 r.b 100 = some (.ret w7 c7 r7) ∧ r7.n = 0 ∧ r7.err = some .EOF :=
  C2_scenario (List.replicate 8 0) 100 (by decide)

/-! ## C3, C4, C5: an empty payload, and closing a connection -/

/-- C3, the code at the failing input. A connection is opened on port 42
(`Listen(7000)`, `acceptor(7000, 42, 99)`, `Accept`); the host then delivers the
payload `""`, which decodes to zero bytes and is queued as an empty fragment;
`Read` into a buffer of length 1 returns `(0, nil)`: success with zero bytes. -/
theorem C3_read_zero_bytes :
    ∃ w1 l w2 w4 w5 c5,
      Listen World.init 7000 .null = .ret w1 l ∧
      acceptor w1 7000 42 99 = .blocked w2 ∧
      l.Accept w2 = .ret openWorld openConn ∧
      receiver openWorld 42 "" = .ret w4 .null ∧
      openConn.Read w4 [7] 1 = some (.ret w5 c5 { b := [7], n := 0, err := none }) :=
  ⟨{ World.init with accepterChans := [Chan.make 0], accepters := [(7000, 0)],
                      calls := [.listen 7000] },
    { listenAddr := newAddr 7000, accepter := 0 },
    { openWorld with accepterChans := [⟨0, [], [⟨42, 99⟩], false⟩], accepterMtx := true,
                     receiverChans := [], receivers := [] },
    { openWorld with receiverChans := [⟨10, [some []], [], false⟩] },
    openWorld, openConn, rfl, rfl, rfl, rfl, rfl⟩

/-- C4, the code at the failing input. On the connection opened on port 42,
`Close` with the bridge reporting no error returns nil and has only made the
bridge call: port 42 is still in the receiver registry, its channel is still
open, and a `Read` on the empty queue stays parked instead of returning
end-of-stream. -/
theorem C4_close_leaves_receiver :
    ∃ w1 l w2 w4,
      Listen World.init 7000 .null = .ret w1 l ∧
      acceptor w1 7000 42 99 = .blocked w2 ∧
      l.Accept w2 = .ret openWorld openConn ∧
      openConn.Close openWorld .null = .ret w4 openConn none ∧
      w4.calls = openWorld.calls ++ [.close 42] ∧
      mapGet w4.receivers 42 = some openConn.receiver ∧
      w4.receiverChans[openConn.receiver]? = some (Chan.make RECEIVER_BUFFERS) ∧
      openConn.Read w4 [7] 1 = some (.blocked w4 openConn) :=
  ⟨{ World.init with accepterChans := [Chan.make 0], accepters := [(7000, 0)],
                      calls := [.listen 7000] },
    { listenAddr := newAddr 7000, accepter := 0 },
    { openWorld with accepterChans := [⟨0, [], [⟨42, 99⟩], false⟩], accepterMtx := true,
                     receiverChans := [], receivers := [] },
    { openWorld with calls := [.listen 7000, .close 42] },
    rfl, rfl, rfl, rfl, rfl, rfl, rfl, rfl⟩

theorem uint16_cast (port : Nat) (h : port < 65536) : uint16 (port : Int) = port := by
  unfold uint16
  omega

/-- What does close the channel of a connection. For every open connection
with local port `p` (registered to its channel, which is open and empty), when
the bridge close call reports no error, `Close` returns nil having made only
the bridge call `close(p)`: the receiver channels are as before. The callback
`closer(p)` then closes the channel; after it, a `Read` on the connection with
an empty fragment queue, whether called afresh or parked at its `select`,
returns `(0, io.EOF)`. -/
theorem Close_defers_to_closer (w : World) (c : connWasm) (b : Bytes) (now : Time)
    (hostRet : JsValue) (ch : Chan (Option Bytes))
    (hnil : checkJsError hostRet = .nil)
    (hport : c.localAddr.port < 65536)
    (hreg : mapGet w.receivers c.localAddr.port = some c.receiver)
    (hch : w.receiverChans[c.receiver]? = some ch)
    (hopen : ch.closed = false) (hempty : ch.pending = []) (hbuf : c.buffer = []) :
    ∃ w1, c.Close w hostRet = .ret w1 c none ∧
      w1.calls = w.calls ++ [.close c.localAddr.port] ∧
      w1.receiverChans = w.receiverChans ∧
      ∃ w2, closer w1 c.localAddr.port = .ret w2 .null ∧
        w2.receiverChans[c.receiver]? = some { ch with closed := true } ∧
        c.Read w2 b now = some (.ret w2 (c.expire now) { b := b, n := 0, err := some .EOF }) ∧
        c.Read_resume w2 b now = some (.ret w2 c { b := b, n := 0, err := some .EOF }) := by
  have hq : ch.sendq = [] := by
    unfold Chan.pending at hempty
    exact (List.append_eq_nil.mp hempty).2
  have hclose : closeOn w.receiverChans c.receiver = CloseResult.done { ch with closed := true } := by
    simp [closeOn, hch, Chan.close, hopen, hq]
  have hch2 : (w.receiverChans.set c.receiver { ch with closed := true })[c.receiver]? =
      some { ch with closed := true } := getElem?_set_of_some _ _ _ _ hch
  have hp2 : ({ ch with closed := true } : Chan (Option Bytes)).pending = [] := hempty
  have hfuel : pendingCount (w.receiverChans.set c.receiver { ch with closed := true })
      c.receiver = 0 := by
    simp [pendingCount, hch2, hp2]
  refine ⟨{ w with calls := w.calls ++ [.close c.localAddr.port] }, ?_, rfl, rfl,
    { w with calls := w.calls ++ [.close c.localAddr.port],
             receiverChans := w.receiverChans.set c.receiver { ch with closed := true } },
    ?_, hch2, ?_, ?_⟩
  · simp [connWasm.Close, hnil]
  · simp [closer, uint16_cast _ hport, hreg, hclose]
  · unfold connWasm.Read
    simp only [hfuel]
    rw [Read_loop_empty 1 _ c b now hbuf, recvOn_eq _ _ _ hch2,
      Chan.recv_of_pending_nil _ hp2]
    simp
  · unfold connWasm.Read_resume
    simp only [hfuel]
    rw [Read_loop_atSelect 1, recvOn_eq _ _ _ hch2, Chan.recv_of_pending_nil _ hp2]
    simp

/-- C5, the code at the failing input. On the connection opened on port 42,
`closer(42)` closes the channel and returns nil, but port 42 is still in the
receiver registry; a second `closer(42)` finds the entry and panics on closing
the closed channel. -/
theorem C5_closer_keeps_entry :
    ∃ w1 l w2 w4,
      Listen World.init 7000 .null = .ret w1 l ∧
      acceptor w1 7000 42 99 = .blocked w2 ∧
      l.Accept w2 = .ret openWorld openConn ∧
      closer openWorld 42 = .ret w4 .null ∧
      w4.receiverChans[openConn.receiver]? = some ⟨RECEIVER_BUFFERS, [], [], true⟩ ∧
      mapGet w4.receivers 42 = some openConn.receiver ∧
      closer w4 42 = .panic "close of closed channel" :=
  ⟨{ World.init with accepterChans := [Chan.make 0], accepters := [(7000, 0)],
                      calls := [.listen 7000] },
    { listenAddr := newAddr 7000, accepter := 0 },
    { openWorld with accepterChans := [⟨0, [], [⟨42, 99⟩], false⟩], accepterMtx := true,
                     receiverChans := [], receivers := [] },
    { openWorld with receiverChans := [⟨10, [], [], true⟩] },
    rfl, rfl, rfl, rfl, rfl, rfl, rfl⟩

/-! ## C6, C7: a deadline that has already passed -/

theorem Read_total (w : World) (c : connWasm) (b : Bytes) (now : Time) :
    ∃ res, c.Read w b now = some res := by
  cases hch : w.receiverChans[c.receiver]? with
  | some ch =>
    obtain ⟨res, _, _, _, hres, _⟩ := Read_frag w c b now ch hch
    exact ⟨res, hres⟩
  | none =>
    have hfuel : pendingCount w.receiverChans c.receiver = 0 := by simp [pendingCount, hch]
    unfold connWasm.Read
    rw [hfuel]
    cases hb : c.buffer with
    | cons head rest => exact ⟨_, Read_loop_buffer 1 w c b now head rest hb⟩
    | nil =>
      have hr : recvOn w.receiverChans c.receiver = RecvResult.wouldBlock := by
        simp [recvOn, hch]
      rw [Read_loop_empty 1 w c b now hb, hr]
      simp only
      split <;> exact ⟨_, rfl⟩

theorem expire_deadline_zero (c : connWasm) (now : Time)
    (h : c.deadline = 0 ∨ c.deadline < now) : (c.expire now).deadline = 0 := by
  unfold connWasm.expire
  by_cases hlt : c.deadline < now
  · rw [if_pos hlt]
  · rw [if_neg hlt]
    rcases h with h | h
    · exact h
    · exact absurd h hlt

/-- With no deadline, or one that lies before `now`, on entry with an empty
fragment queue, no timer is ever armed: the loop does not end with the timeout
error, and it leaves the deadline at the zero value. -/
theorem Read_loop_no_timer (fuel : Nat) : ∀ (w : World) (c : connWasm) (b : Bytes) (now : Time)
    (res : ConnResult ReadRet), (c.deadline = 0 ∨ c.deadline < now) → c.buffer = [] →
    connWasm.Read_loop fuel false w c b now = some res →
    (∀ w1 c1 r, res = .ret w1 c1 r → r.err ≠ some (.errorf "timeout" []) ∧ c1.deadline = 0) ∧
    (∀ w1 c1, res = .blocked w1 c1 → c1.deadline = 0) := by
  induction fuel with
  | zero => intro w c b now res _ _ h; simp [connWasm.Read_loop] at h
  | succ fuel ih =>
    intro w c b now res hd hb h
    have hz := expire_deadline_zero c now hd
    rw [Read_loop_empty fuel w c b now hb] at h
    cases hr : recvOn w.receiverChans c.receiver with
    | closed =>
      rw [hr] at h
      simp only [Option.some.injEq] at h
      subst h
      refine ⟨?_, ?_⟩
      · intro w1 c1 r heq
        simp only [ConnResult.ret.injEq] at heq
        obtain ⟨_, h2, h3⟩ := heq
        subst h2 h3
        exact ⟨by simp, hz⟩
      · intro w1 c1 heq; simp at heq
    | wouldBlock =>
      rw [hr] at h
      simp only [hz, ne_eq, not_true_eq_false, if_false, Option.some.injEq] at h
      subst h
      refine ⟨?_, ?_⟩
      · intro w1 c1 r heq; simp at heq
      · intro w1 c1 heq
        simp only [ConnResult.blocked.injEq] at heq
        obtain ⟨_, h2⟩ := heq
        subst h2
        exact hz
    | value data ch r =>
      rw [hr] at h
      cases data with
      | none =>
        simp only at h
        exact ih _ _ b now res (Or.inl hz) (by rw [expire_buffer, hb]) h
      | some d =>
        simp only at h
        cases fuel with
        | zero => simp [connWasm.Read_loop] at h
        | succ fuel =>
          rw [Read_loop_buffer fuel _ _ b now d [] rfl] at h
          simp only [Option.some.injEq] at h
          subst h
          refine ⟨?_, ?_⟩
          · intro w1 c1 r heq
            simp only [ConnResult.ret.injEq] at heq
            obtain ⟨_, h2, h3⟩ := heq
            subst h2 h3
            refine ⟨by simp, ?_⟩
            split <;> rfl
          · intro w1 c1 heq; simp at heq

/-- C6 as stated fails. The connection on port 42 has an empty fragment queue
and the deadline 5, and `Read` is called at time 10. With nothing in the
channel, `Read` does not return the timeout error: it resets the deadline and
stays parked. With the payload "hi" in the channel, `Read` takes it from the
channel and returns `(2, nil)`. -/
theorem C6_counterexample :
    ({ openConn with deadline := 5 } : connWasm).buffer = [] ∧
    ({ openConn with deadline := 5 } : connWasm).deadline ≠ 0 ∧
    ({ openConn with deadline := 5 } : connWasm).deadline < 10 ∧
    ({ openConn with deadline := 5 } : connWasm).Read openWorld [7, 7] 10 =
      some (.blocked openWorld openConn) ∧
    ∃ w4, receiver openWorld 42 "aGk=" = .ret w4 .null ∧
      w4.receiverChans[0]? = some ⟨RECEIVER_BUFFERS, [some [104, 105]], [], false⟩ ∧
      ({ openConn with deadline := 5 } : connWasm).Read w4 [7, 7] 10 =
        some (.ret openWorld openConn { b := [104, 105], n := 2, err := none }) :=
  ⟨rfl, by decide, by decide, rfl,
    { openWorld with receiverChans := [⟨10, [some [104, 105]], [], false⟩] }, rfl, rfl, rfl⟩

/-- C6, amended. For every connection whose fragment queue is empty and whose
deadline lies before the current time, `Read` resets the deadline to the zero
value and waits on the receiver channel with no timer: it always has a result,
which is never the timeout error, and it leaves the deadline at zero. While the
channel is open and empty, `Read` stays parked and takes nothing from the
channel; when a payload is waiting, `Read` returns its bytes without error. -/
theorem C6_expired_deadline_is_cleared (w : World) (c : connWasm) (b : Bytes) (now : Time)
    (hbuf : c.buffer = []) (hpast : c.deadline < now) :
    (∃ res, c.Read w b now = some res ∧
      (∀ w1 c1 r, res = .ret w1 c1 r →
        r.err ≠ some (.errorf "timeout" []) ∧ c1.deadline = 0) ∧
      (∀ w1 c1, res = .blocked w1 c1 → c1.deadline = 0)) ∧
    (∀ ch, w.receiverChans[c.receiver]? = some ch → ch.closed = false → ch.pending = [] →
      c.Read w b now = some (.blocked w { c with deadline := 0 })) ∧
    (∀ ch hd rest, w.receiverChans[c.receiver]? = some ch → fragments w c = hd :: rest →
      ∃ w1 c1, c.Read w b now =
        some (.ret w1 c1 { b := (copy b hd).1, n := (copy b hd).2, err := none })) := by
  refine ⟨?_, ?_, ?_⟩
  · obtain ⟨res, hres⟩ := Read_total w c b now
    exact ⟨res, hres, Read_loop_no_timer _ w c b now res (Or.inr hpast) hbuf hres⟩
  · intro ch hch hopen hp
    have hfuel : pendingCount w.receiverChans c.receiver = 0 := by
      simp [pendingCount, hch, hp]
    have hexp : c.expire now = { c with deadline := 0 } := by
      unfold connWasm.expire; rw [if_pos hpast]
    unfold connWasm.Read
    rw [hfuel, Read_loop_empty 1 w c b now hbuf, recvOn_eq _ _ ch hch,
      Chan.recv_of_pending_nil ch hp, hexp]
    simp [hopen]
  · intro ch hd rest hch hfr
    obtain ⟨res, w1, c1, _, hres, _, _, _, _, _, hA, _⟩ := Read_frag w c b now ch hch
    obtain ⟨h1, _⟩ := hA hd rest hfr
    exact ⟨w1, c1, by rw [hres, h1]⟩

/-- C6 amended, an instance: deadline 5, `Read` at time 10 on the open and empty
channel of port 42. -/
theorem C6_expired_deadline_is_cleared_witness :
    ({ openConn with deadline := 5 } : connWasm).Read openWorld [7, 7] 10 =
      some (.blocked openWorld { ({ openConn with deadline := 5 } : connWasm) with deadline := 0 }) :=
  (C6_expired_deadline_is_cleared openWorld { openConn with deadline := 5 } [7, 7] 10 rfl
    (by decide)).2.1 (Chan.make RECEIVER_BUFFERS) rfl rfl rfl

/-- C7 as stated fails. On the connection of port 42, with no deadline and
nothing queued, `Read` at time 10 parks at its `select` without a timer.
`SetDeadline(5)`, a time already past, stores the deadline and queues the wake
sentinel. The parked `Read` takes the sentinel, and on its next iteration resets
the passed deadline and parks again without a timer: it does not return the
timeout error. -/
theorem C7_counterexample :
    openConn.deadline = 0 ∧ openConn.buffer = [] ∧
    openConn.Read openWorld [7] 10 = some (.blocked openWorld openConn) ∧
    ∃ w4 c4, openConn.SetDeadline openWorld 5 = .ret w4 c4 none ∧
      c4.deadline = 5 ∧
      w4.receiverChans[0]? = some ⟨RECEIVER_BUFFERS, [none], [], false⟩ ∧
      c4.Read_resume w4 [7] 10 = some (.blocked openWorld openConn) :=
  ⟨rfl, rfl, rfl,
    { openWorld with receiverChans := [⟨10, [none], [], false⟩] },
    { openConn with deadline := 5 }, rfl, rfl, rfl, rfl⟩

theorem expire_of_zero (c : connWasm) (now : Time) (h : c.deadline = 0) : c.expire now = c := by
  obtain ⟨la, ra, dl, rc, bf⟩ := c
  simp only at h
  subst h
  unfold connWasm.expire
  split <;> rfl

/-- C7, amended. For every connection with no deadline set whose `Read` (at time
`now`) is parked on an empty fragment queue and an empty open channel, calling
`SetDeadline(t)` with `t` before `now` stores `t` and queues the wake sentinel;
the parked `Read` takes the sentinel, observes the new deadline, resets it to
the zero value because it has passed, and parks again without a timer, the
channel being as it was: it does not return the timeout error. -/
theorem C7_past_deadline_does_not_time_out (w : World) (c : connWasm) (b : Bytes)
    (now t : Time) (ch : Chan (Option Bytes))
    (hbuf : c.buffer = []) (hdl : c.deadline = 0)
    (hch : w.receiverChans[c.receiver]? = some ch)
    (hopen : ch.closed = false) (hb : ch.buf = []) (hq : ch.sendq = []) (hcap : 0 < ch.cap)
    (hpast : t < now) :
    c.Read w b now = some (.blocked w c) ∧
    ∃ w1 w2, c.SetDeadline w t = .ret w1 { c with deadline := t } none ∧
      ({ c with deadline := t } : connWasm).Read_resume w1 b now =
        some (.blocked w2 { c with deadline := 0 }) ∧
      w2.receiverChans[c.receiver]? = some ch := by
  obtain ⟨cap, buf, sendq, closed⟩ := ch
  simp only at hopen hb hq hcap
  subst hopen hb hq
  have hp : (⟨cap, [], [], false⟩ : Chan (Option Bytes)).pending = [] := rfl
  refine ⟨?_, ?_⟩
  · have hfuel : pendingCount w.receiverChans c.receiver = 0 := by
      simp [pendingCount, hch, hp]
    unfold connWasm.Read
    rw [hfuel, Read_loop_empty 1 w c b now hbuf, recvOn_eq _ _ _ hch,
      Chan.recv_of_pending_nil _ hp, expire_of_zero c now hdl]
    simp [hdl]
  · have hsend : sendOn w.receiverChans c.receiver none =
        SendResult.sent (⟨cap, [none], [], false⟩ : Chan (Option Bytes)) := by
      rw [sendOn_eq _ _ _ _ hch]
      simp [Chan.send, hcap]
    have hch1 : (w.receiverChans.set c.receiver
        (⟨cap, [none], [], false⟩ : Chan (Option Bytes)))[c.receiver]? =
          some ⟨cap, [none], [], false⟩ := getElem?_set_of_some _ _ _ _ hch
    have hch2 : ((w.receiverChans.set c.receiver
        (⟨cap, [none], [], false⟩ : Chan (Option Bytes))).set c.receiver
          (⟨cap, [], [], false⟩ : Chan (Option Bytes)))[c.receiver]? =
          some ⟨cap, [], [], false⟩ := getElem?_set_of_some _ _ _ _ hch1
    refine ⟨{ w with receiverChans := w.receiverChans.set c.receiver ⟨cap, [none], [], false⟩ },
      { w with receiverChans :=
          (List.set (w.receiverChans.set c.receiver ⟨cap, [none], [], false⟩)
            c.receiver ⟨cap, [], [], false⟩) }, ?_, ?_, hch2⟩
    · simp [connWasm.SetDeadline, hsend]
    · have hfuel : pendingCount (w.receiverChans.set c.receiver
          (⟨cap, [none], [], false⟩ : Chan (Option Bytes))) c.receiver = 1 := by
        simp [pendingCount, hch1, Chan.pending]
      have hexp : ({ c with deadline := t } : connWasm).expire now = { c with deadline := 0 } := by
        unfold connWasm.expire
        rw [if_pos hpast]
      unfold connWasm.Read_resume
      simp only [hfuel]
      rw [Read_loop_atSelect 2, recvOn_eq _ _ _ hch1]
      simp only [Chan.recv]
      rw [Read_loop_empty 1 _ ({ c with deadline := t } : connWasm) b now hbuf,
        recvOn_eq _ _ _ hch2, hexp]
      simp [Chan.recv]

/-- C7 amended, an instance: the connection of port 42, `Read` at time 10,
`SetDeadline(5)`. -/
theorem C7_past_deadline_does_not_time_out_witness :
    openConn.Read openWorld [7] 10 = some (.blocked openWorld openConn) :=
  (C7_past_deadline_does_not_time_out openWorld openConn [7] 10 5 (Chan.make RECEIVER_BUFFERS)
    rfl rfl rfl rfl rfl rfl (by decide) (by decide)).1

/-! ## C8: a dial that the bridge refuses -/

/-- C8, the code at the failing input. From the initial state, `Dialer` on
"localhost:8080" draws the key 7 and the bridge call `connect` reports
"connection refused": `Dialer` returns that error, and the key 7, absent from
the correlation registry before the call, is present after it. -/
theorem C8_failed_dial_leaves_entry :
    ∃ w1,
      Dialer World.init "localhost:8080" [7] (.str "connection refused") =
        .failed w1 (.errorf "connection refused" []) ∧
      w1.calls = [.connect 7 8080] ∧
      mapGet World.init.connectors 7 = none ∧
      mapGet w1.connectors 7 = some 0 ∧
      w1.connectorChans[0]? = some (Chan.make 0) :=
  ⟨{ World.init with connectorChans := [Chan.make 0], connectors := [(7, 0)],
                      calls := [.connect 7 8080] },
    by decide, rfl, rfl, rfl, rfl⟩

/-! ## C9: the connect handshake -/

theorem pickKey_some (m : List (Nat × Nat)) (draws : List Nat) (key : Nat)
    (h : pickKey m draws = some key) : mapGet m key = none ∧ key < 4294967296 := by
  induction draws with
  | nil => simp [pickKey] at h
  | cons r rs ih =>
    simp only [pickKey] at h
    by_cases hr : (mapGet m (r % 4294967296)).isSome = true
    · rw [if_pos hr] at h; exact ih h
    · rw [if_neg hr] at h
      simp only [Option.some.injEq] at h
      subst h
      refine ⟨?_, Nat.mod_lt _ (by decide)⟩
      cases hg : mapGet m (r % 4294967296) with
      | none => rfl
      | some v => rw [hg] at hr; simp at hr

theorem uint32_cast (key : Nat) (h : key < 4294967296) : uint32 (key : Int) = key := by
  unfold uint32
  omega

theorem Dialer_resume_fresh (w : World) (key connector : Nat)
    (hch : w.connectorChans[connector]? = some (Chan.make 0)) :
    Dialer_resume w key connector = .waiting w key connector := by
  simp [Dialer_resume, recvOn, hch, Chan.recv, Chan.make]

/-- What a `Dialer` that is waiting for its reply has done: it drew `key`,
registered the fresh unbuffered channel `connector` under it, and made the
bridge call. -/
theorem Dialer_waiting (w w1 : World) (target : String) (draws : List Nat) (hostRet : JsValue)
    (key connector : Nat) (h : Dialer w target draws hostRet = .waiting w1 key connector) :
    pickKey w.connectors draws = some key ∧ connector = w.connectorChans.length ∧
      w1.connectorChans = w.connectorChans ++ [Chan.make 0] ∧
      w1.connectors = mapSet w.connectors key connector ∧
      w1.receivers = w.receivers ∧ w1.receiverChans = w.receiverChans := by
  unfold Dialer at h
  cases hm : matchTarget target with
  | none => rw [hm] at h; simp at h
  | some digits =>
    rw [hm] at h
    simp only at h
    cases hk : pickKey w.connectors draws with
    | none => rw [hk] at h; simp at h
    | some k =>
      rw [hk] at h
      simp only at h
      cases hc : checkJsError hostRet with
      | err e => rw [hc] at h; simp at h
      | panic msg => rw [hc] at h; simp at h
      | nil =>
        rw [hc] at h
        simp only at h
        rw [Dialer_resume_fresh _ _ _ (by simp)] at h
        simp only [DialResult.waiting.injEq] at h
        obtain ⟨h1, h2, h3⟩ := h
        subst h1 h2 h3
        exact ⟨rfl, rfl, rfl, rfl, rfl, rfl⟩

/-- C9. Let `Dialer` have made its bridge call, been acknowledged, and be
waiting under `key` on its channel `connector`. When `connectReply(key,
serverPort, clientPort)` then arrives with a null error, the callback hands its
entry to the channel, and `Dialer` returns a connection with local port
`clientPort` and remote port `serverPort` whose receiver channel is the fresh
channel registered under `clientPort` in the receiver registry; the entry of
`key` is gone from the correlation registry. When the reply carries an error,
`Dialer` returns that error, the entry of `key` is gone, and the receiver
registry and the receiver channels are as before. -/
theorem C9_dial_follows_reply (w w1 : World) (target : String) (draws : List Nat)
    (hostRet : JsValue) (key connector : Nat) (a1 a2 : Int)
    (hdial : Dialer w target draws hostRet = .waiting w1 key connector) :
    (∃ w2 w3 c, connectReply w1 key a1 a2 .null = .blocked w2 ∧
      Dialer_resume w2 key connector = .connected w3 c ∧
      c.LocalAddr.port = uint16 a2 ∧ c.RemoteAddr.port = uint16 a1 ∧
      mapGet w3.receivers (uint16 a2) = some c.receiver ∧
      w3.receiverChans[c.receiver]? = some (Chan.make RECEIVER_BUFFERS) ∧
      c.buffer = [] ∧ c.deadline = 0 ∧
      mapGet w3.connectors key = none) ∧
    (∀ err : JsValue, err.IsNull = false →
      ∃ w2 w3, connectReply w1 key a1 a2 err = .blocked w2 ∧
        Dialer_resume w2 key connector = .failed w3 (.errorf err.String []) ∧
        mapGet w3.connectors key = none ∧
        w3.receivers = w1.receivers ∧ w3.receiverChans = w1.receiverChans) := by
  obtain ⟨hk, hc, hchans, hconn, _, _⟩ := Dialer_waiting w w1 target draws hostRet key connector hdial
  obtain ⟨_, hlt⟩ := pickKey_some _ _ _ hk
  have hu : uint32 (key : Int) = key := uint32_cast key hlt
  have hget : mapGet w1.connectors key = some connector := by
    rw [hconn, mapGet_mapSet]; simp
  have hch : w1.connectorChans[connector]? = some (Chan.make 0) := by
    rw [hchans, hc]; exact List.getElem?_concat_length _ _
  have hsend : ∀ e : connectorEntry, sendOn w1.connectorChans connector e =
      SendResult.parked ⟨0, [], [e], false⟩ := by
    intro e
    rw [sendOn_eq _ _ _ _ hch]
    simp [Chan.send, Chan.make]
  have hset : ∀ e : connectorEntry,
      (w1.connectorChans.set connector (⟨0, [], [e], false⟩ : Chan connectorEntry))[connector]? =
        some ⟨0, [], [e], false⟩ := fun e => getElem?_set_of_some _ _ _ _ hch
  refine ⟨?_, ?_⟩
  · refine ⟨{ w1 with connectorChans := (w1.connectorChans.set connector
        ⟨0, [], [⟨uint16 a1, uint16 a2, none⟩], false⟩) }, ?_⟩
    have hreply : connectReply w1 key a1 a2 .null = .blocked { w1 with connectorChans :=
        (w1.connectorChans.set connector ⟨0, [], [⟨uint16 a1, uint16 a2, none⟩], false⟩) } := by
      simp [connectReply, hu, hget, JsValue.IsNull, hsend]
    simp only [hreply, true_and]
    simp only [Dialer_resume, recvOn, hset, Chan.recv, Chan.close]
    simp only [newAddr, connWasm.LocalAddr, connWasm.RemoteAddr, DialResult.connected.injEq]
    refine ⟨{ w1 with
        connectorChans := (List.set (w1.connectorChans.set connector
          ⟨0, [], [⟨uint16 a1, uint16 a2, none⟩], false⟩) connector ⟨0, [], [], true⟩),
        receiverChans := w1.receiverChans ++ [Chan.make RECEIVER_BUFFERS],
        connectors := mapDelete w1.connectors key,
        receivers := mapSet w1.receivers (uint16 a2) w1.receiverChans.length },
      ⟨⟨uint16 a2⟩, ⟨uint16 a1⟩, 0, w1.receiverChans.length, []⟩,
      by simp, rfl, rfl, ?_, ?_, rfl, rfl, ?_⟩
    · simp [mapGet_mapSet]
    · simp
    · simp [mapGet_mapDelete]
  · intro err herr
    refine ⟨{ w1 with connectorChans := (w1.connectorChans.set connector
        ⟨0, [], [⟨0, 0, some (.errorf err.String [])⟩], false⟩) }, ?_⟩
    have hreply : connectReply w1 key a1 a2 err = .blocked { w1 with connectorChans :=
        (w1.connectorChans.set connector
          ⟨0, [], [⟨0, 0, some (.errorf err.String [])⟩], false⟩) } := by
      simp [connectReply, hu, hget, herr, hsend]
    simp only [hreply, true_and]
    simp only [Dialer_resume, recvOn, hset, Chan.recv, Chan.close]
    refine ⟨{ w1 with
        connectorChans := (List.set (w1.connectorChans.set connector
          ⟨0, [], [⟨0, 0, some (.errorf err.String [])⟩], false⟩) connector ⟨0, [], [], true⟩),
        connectors := mapDelete w1.connectors key },
      by simp, ?_, rfl, rfl⟩
    simp [mapGet_mapDelete]

/-- C9, an instance: from the initial state, `Dialer` on "localhost:8080" with
key 7, and the reply `connectReply(7, 99, 42)`. -/
theorem C9_dial_follows_reply_witness :
    ∃ w2 w3 c, connectReply
        { World.init with connectorChans := [Chan.make 0], connectors := [(7, 0)],
                          calls := [.connect 7 8080] } (7 : Nat) 99 42 .null = .blocked w2 ∧
      Dialer_resume w2 7 0 = .connected w3 c ∧
      c.LocalAddr.port = uint16 42 ∧ c.RemoteAddr.port = uint16 99 ∧
      mapGet w3.receivers (uint16 42) = some c.receiver ∧
      w3.receiverChans[c.receiver]? = some (Chan.make RECEIVER_BUFFERS) ∧
      c.buffer = [] ∧ c.deadline = 0 ∧
      mapGet w3.connectors 7 = none :=
  (C9_dial_follows_reply World.init
    { World.init with connectorChans := [Chan.make 0], connectors := [(7, 0)],
                      calls := [.connect 7 8080] }
    "localhost:8080" [7] .null 7 0 99 42 (by decide)).1

/-! ## C10: correlation keys -/

theorem KeyStep.same (w w1 : World) (h1 : w1.connectors = w.connectors)
    (h2 : w1.connectorChans = w.connectorChans) : KeyStep w w1 :=
  Or.inl ⟨by rw [h2], by rw [h1]; exact fun _ _ h => h⟩

theorem acceptor_keys (w w1 : World) (a0 a1 a2 : Int)
    (h : (acceptor w a0 a1 a2).world? = some w1) : KeyStep w w1 := by
  unfold acceptor at h
  simp only at h
  repeat' split at h
  all_goals simp only [Result.world?, Option.some.injEq] at h
  all_goals first | (subst h; exact KeyStep.same _ _ rfl rfl) | exact absurd h (by simp)

theorem receiver_keys (w w1 : World) (a0 : Int) (data : String)
    (h : (receiver w a0 data).world? = some w1) : KeyStep w w1 := by
  unfold receiver at h
  simp only at h
  repeat' split at h
  all_goals simp only [Result.world?, Option.some.injEq] at h
  all_goals first | (subst h; exact KeyStep.same _ _ rfl rfl) | exact absurd h (by simp)

theorem closer_keys (w w1 : World) (a0 : Int)
    (h : (closer w a0).world? = some w1) : KeyStep w w1 := by
  unfold closer at h
  simp only at h
  repeat' split at h
  all_goals simp only [Result.world?, Option.some.injEq] at h
  all_goals first | (subst h; exact KeyStep.same _ _ rfl rfl) | exact absurd h (by simp)

theorem Listen_keys (w w1 : World) (port : Nat) (hostRet : JsValue)
    (h : (Listen w port hostRet).world? = some w1) : KeyStep w w1 := by
  unfold Listen at h
  simp only at h
  repeat' split at h
  all_goals simp only [Result.world?, Option.some.injEq] at h
  all_goals first | (subst h; exact KeyStep.same _ _ rfl rfl) | exact absurd h (by simp)

theorem Accept_keys (w w1 : World) (l : listenerWasm)
    (h : (l.Accept w).world? = some w1) : KeyStep w w1 := by
  unfold listenerWasm.Accept at h
  simp only at h
  repeat' split at h
  all_goals simp only [Result.world?, Option.some.injEq] at h
  all_goals first | (subst h; exact KeyStep.same _ _ rfl rfl) | exact absurd h (by simp)

theorem listenerClose_keys (w w1 : World) (l : listenerWasm) (hostRet : JsValue)
    (h : (l.Close w hostRet).world? = some w1) : KeyStep w w1 := by
  unfold listenerWasm.Close at h
  simp only at h
  repeat' split at h
  all_goals simp only [Result.world?, Option.some.injEq] at h
  all_goals first | (subst h; exact KeyStep.same _ _ rfl rfl) | exact absurd h (by simp)

theorem Write_keys (w w1 : World) (c : connWasm) (b : Bytes) (hostRet : JsValue)
    (h : (c.Write w b hostRet).world? = some w1) : KeyStep w w1 := by
  unfold connWasm.Write at h
  simp only at h
  repeat' split at h
  all_goals simp only [ConnResult.world?, Option.some.injEq] at h
  all_goals first | (subst h; exact KeyStep.same _ _ rfl rfl) | exact absurd h (by simp)

theorem connClose_keys (w w1 : World) (c : connWasm) (hostRet : JsValue)
    (h : (c.Close w hostRet).world? = some w1) : KeyStep w w1 := by
  unfold connWasm.Close at h
  simp only at h
  repeat' split at h
  all_goals simp only [ConnResult.world?, Option.some.injEq] at h
  all_goals first | (subst h; exact KeyStep.same _ _ rfl rfl) | exact absurd h (by simp)

theorem SetDeadline_keys (w w1 : World) (c : connWasm) (t : Time)
    (h : (c.SetDeadline w t).world? = some w1) : KeyStep w w1 := by
  unfold connWasm.SetDeadline at h
  simp only at h
  repeat' split at h
  all_goals simp only [ConnResult.world?, Option.some.injEq] at h
  all_goals first | (subst h; exact KeyStep.same _ _ rfl rfl) | exact absurd h (by simp)

/-- The loop of `Read` touches the receiver channels only. -/
theorem Read_loop_frame (fuel : Nat) : ∀ (atSelect : Bool) (w : World) (c : connWasm) (b : Bytes)
    (now : Time) (res : ConnResult ReadRet) (w1 : World),
    connWasm.Read_loop fuel atSelect w c b now = some res → res.world? = some w1 →
    ∃ chans, w1 = { w with receiverChans := chans } := by
  induction fuel with
  | zero => intro atSelect w c b now res w1 h _; simp [connWasm.Read_loop] at h
  | succ fuel ih =>
    intro atSelect w c b now res w1 h hw
    unfold connWasm.Read_loop at h
    simp only at h
    repeat' split at h
    all_goals first
      | (simp only [Option.some.injEq] at h
         subst h
         simp only [ConnResult.world?, Option.some.injEq] at hw
         subst hw
         exact ⟨_, rfl⟩)
      | (obtain ⟨chans, hc⟩ := ih _ _ _ _ _ _ _ h hw
         exact ⟨chans, by rw [hc]⟩)

theorem Read_keys (w w1 : World) (c : connWasm) (b : Bytes) (now : Time)
    (r : ConnResult ReadRet) (h : c.Read w b now = some r) (hw : r.world? = some w1) :
    KeyStep w w1 := by
  obtain ⟨chans, hc⟩ := Read_loop_frame _ _ _ _ _ _ _ _ h hw
  subst hc
  exact KeyStep.same _ _ rfl rfl

theorem Read_resume_keys (w w1 : World) (c : connWasm) (b : Bytes) (now : Time)
    (r : ConnResult ReadRet) (h : c.Read_resume w b now = some r) (hw : r.world? = some w1) :
    KeyStep w w1 := by
  obtain ⟨chans, hc⟩ := Read_loop_frame _ _ _ _ _ _ _ _ h hw
  subst hc
  exact KeyStep.same _ _ rfl rfl

/-- `connectReply` changes nothing when the key has no entry, and otherwise
only the channel registered under the key. -/
theorem connectReply_effect (w w1 : World) (k a1 a2 : Int) (err : JsValue)
    (h : (connectReply w k a1 a2 err).world? = some w1) :
    (mapGet w.connectors (uint32 k) = none ∧ w1 = w) ∨
      ∃ ch ch1, mapGet w.connectors (uint32 k) = some ch ∧
        w1 = { w with connectorChans := w.connectorChans.set ch ch1 } := by
  unfold connectReply at h
  simp only at h
  cases hg : mapGet w.connectors (uint32 k) with
  | none =>
    rw [hg] at h
    simp only [Result.world?, Option.some.injEq] at h
    exact Or.inl ⟨rfl, h.symm⟩
  | some ch =>
    rw [hg] at h
    simp only at h
    right
    split at h
    · simp [Result.world?] at h
    · simp only [Result.world?, Option.some.injEq] at h
      exact ⟨ch, _, rfl, h.symm⟩
    · simp only [Result.world?, Option.some.injEq] at h
      exact ⟨ch, _, rfl, h.symm⟩

theorem connectReply_keys (w w1 : World) (k a1 a2 : Int) (err : JsValue)
    (h : (connectReply w k a1 a2 err).world? = some w1) : KeyStep w w1 := by
  rcases connectReply_effect w w1 k a1 a2 err h with ⟨_, h1⟩ | ⟨ch, ch1, _, h1⟩
  · subst h1; exact KeyStep.same _ _ rfl rfl
  · subst h1
    exact Or.inl ⟨by simp, fun _ _ h => h⟩

theorem Dialer_resume_keys (w w1 : World) (key connector : Nat)
    (h : (Dialer_resume w key connector).world? = some w1) : KeyStep w w1 := by
  have hdel : ∀ k ch, mapGet (mapDelete w.connectors key) k = some ch →
      mapGet w.connectors k = some ch := by
    intro k ch hk
    rw [mapGet_mapDelete] at hk
    by_cases hkk : k = key
    · rw [if_pos hkk] at hk; simp at hk
    · rw [if_neg hkk] at hk; exact hk
  unfold Dialer_resume at h
  simp only at h
  repeat' split at h
  all_goals simp only [DialResult.world?, Option.some.injEq] at h
  all_goals first
    | (subst h; exact KeyStep.same _ _ rfl rfl)
    | (subst h; exact Or.inl ⟨by simp, hdel⟩)
    | exact absurd h (by simp)

theorem Dialer_keys (w w1 : World) (target : String) (draws : List Nat) (hostRet : JsValue)
    (h : (Dialer w target draws hostRet).world? = some w1) : KeyStep w w1 := by
  unfold Dialer at h
  simp only at h
  split at h
  · simp only [DialResult.world?, Option.some.injEq] at h
    subst h; exact KeyStep.same _ _ rfl rfl
  · split at h
    · simp [DialResult.world?] at h
    · rename_i key _
      split at h
      · simp only [DialResult.world?, Option.some.injEq] at h
        subst h
        exact Or.inr ⟨key, by simp, rfl⟩
      · simp [DialResult.world?] at h
      · rw [Dialer_resume_fresh _ _ _ (by simp)] at h
        simp only [DialResult.world?, Option.some.injEq] at h
        subst h
        exact Or.inr ⟨key, by simp, rfl⟩

theorem Step.keys (w w1 : World) (h : Step w w1) : KeyStep w w1 := by
  cases h with
  | acceptor a0 a1 a2 h => exact acceptor_keys _ _ _ _ _ h
  | connectReply a0 a1 a2 err h => exact connectReply_keys _ _ _ _ _ _ h
  | receiver a0 data h => exact receiver_keys _ _ _ _ h
  | closer a0 h => exact closer_keys _ _ _ h
  | dial target draws hostRet h => exact Dialer_keys _ _ _ _ _ h
  | dialResume key connector h => exact Dialer_resume_keys _ _ _ _ h
  | listen port hostRet h => exact Listen_keys _ _ _ _ h
  | accept l h => exact Accept_keys _ _ _ h
  | closeListener l hostRet h => exact listenerClose_keys _ _ _ _ h
  | read c b now r h hw => exact Read_keys _ _ _ _ _ _ h hw
  | readResume c b now r h hw => exact Read_resume_keys _ _ _ _ _ _ h hw
  | write c b hostRet h => exact Write_keys _ _ _ _ _ h
  | closeConn c hostRet h => exact connClose_keys _ _ _ _ h
  | setDeadline c t h => exact SetDeadline_keys _ _ _ _ h

theorem KeyStep.preserves (w w1 : World) (hs : KeyStep w w1) (hw : w.connectorsOk) :
    w1.connectorsOk := by
  obtain ⟨hlt, hinj⟩ := hw
  rcases hs with ⟨hlen, hsub⟩ | ⟨key, hlen, hset⟩
  · refine ⟨?_, ?_⟩
    · intro k ch h; rw [hlen]; exact hlt k ch (hsub k ch h)
    · intro k1 k2 ch h1 h2; exact hinj k1 k2 ch (hsub _ _ h1) (hsub _ _ h2)
  · refine ⟨?_, ?_⟩
    · intro k ch h
      rw [hset, mapGet_mapSet] at h
      rw [hlen]
      by_cases hk : k = key
      · rw [if_pos hk] at h
        simp only [Option.some.injEq] at h
        omega
      · rw [if_neg hk] at h
        have := hlt k ch h
        omega
    · intro k1 k2 ch h1 h2
      rw [hset, mapGet_mapSet] at h1 h2
      by_cases hk1 : k1 = key
      · by_cases hk2 : k2 = key
        · rw [hk1, hk2]
        · rw [if_pos hk1] at h1
          rw [if_neg hk2] at h2
          simp only [Option.some.injEq] at h1
          have := hlt k2 ch h2
          omega
      · by_cases hk2 : k2 = key
        · rw [if_neg hk1] at h1
          rw [if_pos hk2] at h2
          simp only [Option.some.injEq] at h2
          have := hlt k1 ch h1
          omega
        · rw [if_neg hk1] at h1
          rw [if_neg hk2] at h2
          exact hinj k1 k2 ch h1 h2

/-- In every reachable state the correlation registry is in order. -/
theorem Reachable.connectorsOk (w : World) (h : Reachable w) : w.connectorsOk := by
  induction h with
  | init => exact ⟨fun k ch h => by simp [World.init, mapGet] at h,
      fun k1 k2 ch h => by simp [World.init, mapGet] at h⟩
  | step w w1 _ hs ih => exact KeyStep.preserves w w1 (Step.keys w w1 hs) ih

theorem Dialer_resume_waiting_iff (w : World) (key connector : Nat) :
    Dialer_resume w key connector = .waiting w key connector ↔
      recvOn w.connectorChans connector = RecvResult.wouldBlock := by
  constructor
  · intro h
    unfold Dialer_resume at h
    simp only at h
    cases hr : recvOn w.connectorChans connector with
    | wouldBlock => rfl
    | closed => rw [hr] at h; simp at h
    | value resp ch r =>
      rw [hr] at h
      simp only at h
      repeat' split at h
      all_goals simp at h
  · intro h
    simp [Dialer_resume, h]

/-- C10. In every reachable state: (1) the key under which a new `Dialer`
registers is not yet in the correlation registry, differs from every key in
flight, gets a channel that no other key has, and leaves the other entries in
place; (2) a `connectReply` for another key than `kA` leaves the registry and
the channel registered under `kA` as they are, so a `Dialer` waiting under `kA`
keeps waiting and receives nothing of it; (3) `connectReply(k, ...)` changes the
channel registered under `k` and nothing else; (4) a `connectReply` for a key
without entry returns the error "there is no connector waiting" and changes
nothing. -/
theorem C10_keys_route_independently (w : World) (hw : Reachable w) :
    (∀ target draws hostRet w1 key connector,
      Dialer w target draws hostRet = .waiting w1 key connector →
      mapGet w.connectors key = none ∧ mapGet w1.connectors key = some connector ∧
      ∀ k ch, mapGet w.connectors k = some ch →
        k ≠ key ∧ ch ≠ connector ∧ mapGet w1.connectors k = some ch) ∧
    (∀ (kA chA : Nat) (kB a1 a2 : Int) (err : JsValue) (w1 : World),
      mapGet w.connectors kA = some chA → uint32 kB ≠ kA →
      (connectReply w kB a1 a2 err).world? = some w1 →
      w1.connectors = w.connectors ∧ w1.connectorChans[chA]? = w.connectorChans[chA]? ∧
      (Dialer_resume w kA chA = .waiting w kA chA →
        Dialer_resume w1 kA chA = .waiting w1 kA chA)) ∧
    (∀ (k a1 a2 : Int) (err : JsValue) (w1 : World) (ch : Nat),
      (connectReply w k a1 a2 err).world? = some w1 →
      mapGet w.connectors (uint32 k) = some ch →
      ∃ ch1, w1 = { w with connectorChans := w.connectorChans.set ch ch1 }) ∧
    (∀ (k a1 a2 : Int) (err : JsValue), mapGet w.connectors (uint32 k) = none →
      connectReply w k a1 a2 err = .ret w (.str "there is no connector waiting")) := by
  obtain ⟨hlt, hinj⟩ := Reachable.connectorsOk w hw
  refine ⟨?_, ?_, ?_, ?_⟩
  · intro target draws hostRet w1 key connector hdial
    obtain ⟨hk, hc, _, hconn, _, _⟩ := Dialer_waiting w w1 target draws hostRet key connector hdial
    obtain ⟨hnone, _⟩ := pickKey_some _ _ _ hk
    refine ⟨hnone, by rw [hconn, mapGet_mapSet]; simp, ?_⟩
    intro k ch hget
    have hne : k ≠ key := by
      intro heq; rw [heq, hnone] at hget; simp at hget
    refine ⟨hne, ?_, ?_⟩
    · have := hlt k ch hget
      omega
    · rw [hconn, mapGet_mapSet, if_neg hne]; exact hget
  · intro kA chA kB a1 a2 err w1 hA hne hreply
    have hchan : w1.connectors = w.connectors ∧
        w1.connectorChans[chA]? = w.connectorChans[chA]? := by
      rcases connectReply_effect w w1 kB a1 a2 err hreply with ⟨_, h1⟩ | ⟨chB, ch1, hB, h1⟩
      · subst h1; exact ⟨rfl, rfl⟩
      · subst h1
        refine ⟨rfl, ?_⟩
        have hch : chB ≠ chA := by
          intro heq
          rw [heq] at hB
          exact hne (hinj _ _ chA hB hA)
        exact List.getElem?_set_ne hch
    refine ⟨hchan.1, hchan.2, ?_⟩
    intro hwait
    rw [Dialer_resume_waiting_iff] at hwait ⊢
    simpa [recvOn, hchan.2] using hwait
  · intro k a1 a2 err w1 ch hreply hget
    rcases connectReply_effect w w1 k a1 a2 err hreply with ⟨h0, _⟩ | ⟨ch0, ch1, h0, h1⟩
    · rw [h0] at hget; simp at hget
    · rw [h0] at hget
      simp only [Option.some.injEq] at hget
      subst hget
      exact ⟨ch1, h1⟩
  · intro k a1 a2 err hnone
    simp [connectReply, hnone]

theorem twoDials_reachable : Reachable twoDials :=
  Reachable.step _ _
    (Reachable.step _ _ Reachable.init
      (Step.dial World.init
        { World.init with connectorChans := [Chan.make 0], connectors := [(7, 0)],
                          calls := [.connect 7 8080] }
        "localhost:8080" [7] .null (by decide)))
    (Step.dial _ twoDials "localhost:9090" [7, 9] .null (by decide))

/-- C10, an instance: with the dials of keys 7 and 9 in flight, the reply
`connectReply(9, 99, 42)` is parked on the channel of key 9, and the `Dialer`
of key 7 keeps waiting on its own channel. -/
theorem C10_keys_route_independently_witness :
    Dialer_resume
        { twoDials with connectorChans := [Chan.make 0, ⟨0, [], [⟨99, 42, none⟩], false⟩] } 7 0 =
      .waiting
        { twoDials with connectorChans := [Chan.make 0, ⟨0, [], [⟨99, 42, none⟩], false⟩] } 7 0 :=
  ((C10_keys_route_independently twoDials twoDials_reachable).2.1 7 0 9 99 42 .null
    { twoDials with connectorChans := [Chan.make 0, ⟨0, [], [⟨99, 42, none⟩], false⟩] }
    rfl (by decide) rfl).2.2 rfl

/-! ## C11: the target of a dial -/

theorem matchTarget_iff (target : String) (digits : List Char) :
    matchTarget target = some digits ↔ isLocalTarget target digits := by
  have hlen : "localhost:".toList.length = 10 := by decide
  unfold matchTarget isLocalTarget
  simp only
  constructor
  · intro h
    by_cases hhead : target.toList.take "localhost:".toList.length = "localhost:".toList
    · rw [if_pos hhead] at h
      by_cases hd : (target.toList.drop "localhost:".toList.length).length ≠ 0 ∧
          (target.toList.drop "localhost:".toList.length).all isDigit = true
      · rw [if_pos hd] at h
        simp only [Option.some.injEq] at h
        subst h
        refine ⟨?_, hd.1, ?_⟩
        · conv_lhs => rw [← List.take_append_drop "localhost:".toList.length target.toList]
          rw [hhead]
        · intro c hc
          exact List.all_eq_true.mp hd.2 c hc
      · rw [if_neg hd] at h; simp at h
    · rw [if_neg hhead] at h; simp at h
  · rintro ⟨h1, h2, h3⟩
    have htake : target.toList.take "localhost:".toList.length = "localhost:".toList := by
      rw [h1]; simp
    have hdrop : target.toList.drop "localhost:".toList.length = digits := by
      rw [h1]; simp
    rw [if_pos htake, hdrop, if_pos ⟨h2, List.all_eq_true.mpr h3⟩]

theorem Atoi_small (digits : List Char) (h : decimal digits ≤ 65535) :
    Atoi digits % 65536 = decimal digits := by
  unfold Atoi
  have : min (decimal digits) (2 ^ 63 - 1) = decimal digits := by
    apply Nat.min_eq_left
    have : (65535 : Nat) ≤ 2 ^ 63 - 1 := by decide
    omega
  rw [this]
  omega

/-- C11 as stated fails. The target "localhost:70000" names a port outside the
16-bit range, yet `Dialer` does not fail with the format error: it registers
the key 7 and calls the bridge with the port 4464 (70000 modulo 65536). -/
theorem C11_counterexample :
    isLocalTarget "localhost:70000" "70000".toList ∧
    decimal "70000".toList = 70000 ∧
    ∃ w1, Dialer World.init "localhost:70000" [7] .null = .waiting w1 7 0 ∧
      w1.calls = [.connect 7 4464] ∧ mapGet w1.connectors 7 = some 0 :=
  ⟨by decide, by decide,
    { World.init with connectorChans := [Chan.make 0], connectors := [(7, 0)],
                      calls := [.connect 7 4464] },
    by decide, rfl, rfl⟩

/-- C11, amended. For every target string that is not the fixed host name
`localhost`, a colon and one or more decimal digits, `Dialer` fails with the
format error before any bridge call or registry change: the state is the one
it started from. For every target that has that form and whose number lies in
0..65535, every state `Dialer` leaves has exactly one bridge call more,
`connect` with the key drawn and the port equal to the decimal number in the
string. -/
theorem C11_dial_target_parsing (w : World) (target : String) (draws : List Nat)
    (hostRet : JsValue) :
    ((∀ digits, ¬ isLocalTarget target digits) →
      Dialer w target draws hostRet =
        .failed w (.errorf "the target `%s` is unexpected format" [target])) ∧
    (∀ digits, isLocalTarget target digits → decimal digits ≤ 65535 →
      ∀ w1, (Dialer w target draws hostRet).world? = some w1 →
        ∃ key, pickKey w.connectors draws = some key ∧
          w1.calls = w.calls ++ [.connect key (decimal digits)]) := by
  refine ⟨?_, ?_⟩
  · intro hno
    have hm : matchTarget target = none := by
      cases hmt : matchTarget target with
      | none => rfl
      | some digits => exact absurd ((matchTarget_iff target digits).mp hmt) (hno digits)
    simp [Dialer, hm]
  · intro digits hform hrange w1 hw1
    have hm := (matchTarget_iff target digits).mpr hform
    unfold Dialer at hw1
    rw [hm] at hw1
    simp only [Atoi_small digits hrange] at hw1
    cases hk : pickKey w.connectors draws with
    | none => rw [hk] at hw1; simp [DialResult.world?] at hw1
    | some key =>
      rw [hk] at hw1
      simp only at hw1
      refine ⟨key, rfl, ?_⟩
      cases hc : checkJsError hostRet with
      | err e =>
        rw [hc] at hw1
        simp only [DialResult.world?, Option.some.injEq] at hw1
        subst hw1; rfl
      | panic msg => rw [hc] at hw1; simp [DialResult.world?] at hw1
      | nil =>
        rw [hc] at hw1
        simp only at hw1
        rw [Dialer_resume_fresh _ _ _ (by simp)] at hw1
        simp only [DialResult.world?, Option.some.injEq] at hw1
        subst hw1; rfl

/-- C11 amended, an instance: the target "localhost:8080" dialled from the
initial state with the key 7. -/
theorem C11_dial_target_parsing_witness :
    ∃ key, pickKey World.init.connectors [7] = some key ∧
      ({ World.init with connectorChans := [Chan.make 0], connectors := [(7, 0)],
                         calls := [.connect 7 8080] } : World).calls =
        World.init.calls ++ [.connect key (decimal "8080".toList)] :=
  (C11_dial_target_parsing World.init "localhost:8080" [7] .null).2 "8080".toList
    (by decide) (by decide)
    { World.init with connectorChans := [Chan.make 0], connectors := [(7, 0)],
                      calls := [.connect 7 8080] } (by decide)

/-! ## C12: one listener per port -/

/-- C12. `Listen(port)`, having taken `accepterMtx`: (1) when the port is
already in the listener registry it fails with an error and the state is
untouched, so no bridge call is made and the registry is unchanged; (2) when
it returns a listener, the port was absent, the bridge reported no error, and
the listener's fresh unbuffered channel is what the registry now holds under
the port, the other ports being as before; (3) when it returns an error, the
registry and the channels are as before; (4) when the port is absent and the
bridge reports no error it does return a listener. -/
theorem C12_one_listener_per_port (w : World) (port : Nat) (hostRet : JsValue)
    (hfree : w.accepterMtx = false) :
    (∀ ch, mapGet w.accepters port = some ch →
      Listen w port hostRet = .err w (.errorf "port %d is already in use" [toString port])) ∧
    (∀ w1 l, Listen w port hostRet = .ret w1 l →
      mapGet w.accepters port = none ∧ checkJsError hostRet = .nil ∧
      w1.calls = w.calls ++ [.listen port] ∧
      l.accepter = w.accepterChans.length ∧
      w1.accepterChans = w.accepterChans ++ [Chan.make 0] ∧
      mapGet w1.accepters port = some l.accepter ∧
      ∀ p, p ≠ port → mapGet w1.accepters p = mapGet w.accepters p) ∧
    (∀ w1 e, Listen w port hostRet = .err w1 e →
      w1.accepters = w.accepters ∧ w1.accepterChans = w.accepterChans) ∧
    (mapGet w.accepters port = none → checkJsError hostRet = .nil →
      ∃ w1 l, Listen w port hostRet = .ret w1 l) := by
  refine ⟨?_, ?_, ?_, ?_⟩
  · intro ch hch
    simp [Listen, hfree, hch]
  · intro w1 l h
    unfold Listen at h
    rw [hfree] at h
    simp only [Bool.false_eq_true, if_false] at h
    cases hg : mapGet w.accepters port with
    | some ch => rw [hg] at h; simp at h
    | none =>
      rw [hg] at h
      simp only at h
      cases hc : checkJsError hostRet with
      | err e => rw [hc] at h; simp at h
      | panic msg => rw [hc] at h; simp at h
      | nil =>
        rw [hc] at h
        simp only [Result.ret.injEq] at h
        obtain ⟨h1, h2⟩ := h
        subst h1 h2
        refine ⟨rfl, rfl, rfl, rfl, rfl, ?_, ?_⟩
        · simp [mapGet_mapSet]
        · intro p hp
          simp [mapGet_mapSet, hp]
  · intro w1 e h
    unfold Listen at h
    rw [hfree] at h
    simp only [Bool.false_eq_true, if_false] at h
    cases hg : mapGet w.accepters port with
    | some ch =>
      rw [hg] at h
      simp only [Result.err.injEq] at h
      obtain ⟨h1, _⟩ := h
      subst h1
      exact ⟨rfl, rfl⟩
    | none =>
      rw [hg] at h
      simp only at h
      cases hc : checkJsError hostRet with
      | err e1 =>
        rw [hc] at h
        simp only [Result.err.injEq] at h
        obtain ⟨h1, _⟩ := h
        subst h1
        exact ⟨rfl, rfl⟩
      | panic msg => rw [hc] at h; simp at h
      | nil => rw [hc] at h; simp at h
  · intro hg hc
    simp [Listen, hfree, hg, hc]

/-- C12, an instance: in the state where port 7000 is listening, a second
`Listen(7000)` fails and leaves the state as it is. -/
theorem C12_one_listener_per_port_witness :
    Listen openWorld 7000 .null =
      .err openWorld (.errorf "port %d is already in use" [toString 7000]) :=
  (C12_one_listener_per_port openWorld 7000 .null rfl).1 0 rfl

/-! ## C13: where the receiver channel of an accepted connection is registered -/

/-- C13 as stated fails. Port 7000 is listening and the host invokes
`acceptor(7000, 42, 99)`: the handler pushes the event (it stays parked in the
send until `Accept` takes it) and registers nothing under port 42. A
`receiver(42, "aGk=")` arriving before `Accept` is rejected with "target port
is not open" and nothing is queued. -/
theorem C13_counterexample :
    ∃ w1 l w2,
      Listen World.init 7000 .null = .ret w1 l ∧
      acceptor w1 7000 42 99 = .blocked w2 ∧
      w2.accepterChans[l.accepter]? = some ⟨0, [], [⟨42, 99⟩], false⟩ ∧
      mapGet w2.receivers 42 = none ∧
      receiver w2 42 "aGk=" = .ret w2 (.str "target port is not open") :=
  ⟨{ World.init with accepterChans := [Chan.make 0], accepters := [(7000, 0)],
                      calls := [.listen 7000] },
    { listenAddr := newAddr 7000, accepter := 0 },
    { openWorld with accepterChans := [⟨0, [], [⟨42, 99⟩], false⟩], accepterMtx := true,
                     receiverChans := [], receivers := [] },
    rfl, rfl, rfl, rfl, rfl⟩

/-- C13, amended. For every listening port `L` (its listener waiting on its
empty event channel) and every event `acceptor(L, serverPort, clientPort)`, the
handler only pushes the event: the receiver registry and the receiver channels
are as before. The receiver channel is registered by `Accept` when it takes the
event, behind the duplicate guard: when `serverPort` is already in the receiver
registry, `Accept` panics with "duplicate port"; when it is not, `Accept`
registers a fresh receiver channel under `serverPort` and returns the
connection on it. With `serverPort` not registered before, a
`receiver(serverPort, payload)` that arrives before `Accept` has taken the event
is rejected as "target port is not open", and one that arrives after `Accept`
has returned is queued on the new channel. -/
theorem C13_accept_registers_receiver (w : World) (l : listenerWasm) (a0 a1 a2 : Int)
    (data : String)
    (hfree : w.accepterMtx = false)
    (hreg : mapGet w.accepters (uint16 a0) = some l.accepter)
    (hch : w.accepterChans[l.accepter]? = some (Chan.make 0)) :
    ∃ w1, acceptor w a0 a1 a2 = .blocked w1 ∧
      w1.receivers = w.receivers ∧ w1.receiverChans = w.receiverChans ∧
      (∀ ch0, mapGet w.receivers (uint16 a1) = some ch0 →
        l.Accept w1 = .panic "duplicate port") ∧
      (mapGet w.receivers (uint16 a1) = none →
        receiver w1 a1 data = .ret w1 (.str "target port is not open") ∧
        ∃ w2 c, l.Accept w1 = .ret w2 c ∧ w2.accepterMtx = false ∧
          c.LocalAddr.port = uint16 a1 ∧ c.RemoteAddr.port = uint16 a2 ∧
          c.receiver = w.receiverChans.length ∧
          mapGet w2.receivers (uint16 a1) = some c.receiver ∧
          w2.receiverChans[c.receiver]? = some (Chan.make RECEIVER_BUFFERS) ∧
          ∀ d, DecodeString data = some d →
            ∃ w3, receiver w2 a1 data = .ret w3 .null ∧
              w3.receiverChans[c.receiver]? =
                some ⟨RECEIVER_BUFFERS, [some d], [], false⟩) := by
  have hsend : sendOn w.accepterChans l.accepter
      ({ serverPort := uint16 a1, clientPort := uint16 a2 } : accepterEntry) =
      SendResult.parked ⟨0, [], [⟨uint16 a1, uint16 a2⟩], false⟩ := by
    rw [sendOn_eq _ _ _ _ hch]
    simp [Chan.send, Chan.make]
  have hset : (w.accepterChans.set l.accepter
      (⟨0, [], [⟨uint16 a1, uint16 a2⟩], false⟩ : Chan accepterEntry))[l.accepter]? =
      some ⟨0, [], [⟨uint16 a1, uint16 a2⟩], false⟩ := getElem?_set_of_some _ _ _ _ hch
  refine ⟨{ w with accepterChans := (w.accepterChans.set l.accepter
      ⟨0, [], [⟨uint16 a1, uint16 a2⟩], false⟩), accepterMtx := true }, ?_, rfl, rfl, ?_, ?_⟩
  · simp [acceptor, hfree, hreg, hsend]
  · intro ch0 hsome
    simp [listenerWasm.Accept, recvOn, hset, Chan.recv, hsome]
  · intro hnone
    refine ⟨by simp [receiver, hnone], ?_⟩
    refine ⟨{ w with
        accepterChans := (List.set (w.accepterChans.set l.accepter
          ⟨0, [], [⟨uint16 a1, uint16 a2⟩], false⟩) l.accepter ⟨0, [], [], false⟩),
        accepterMtx := false,
        receiverChans := w.receiverChans ++ [Chan.make RECEIVER_BUFFERS],
        receivers := mapSet w.receivers (uint16 a1) w.receiverChans.length },
      ⟨⟨uint16 a1⟩, ⟨uint16 a2⟩, 0, w.receiverChans.length, []⟩, ?_, rfl, rfl, rfl, rfl,
      ?_, ?_, ?_⟩
    · simp [listenerWasm.Accept, recvOn, hset, Chan.recv, hnone, newAddr]
    · simp [mapGet_mapSet]
    · simp
    · intro d hd
      refine ⟨{ w with
          accepterChans := (List.set (w.accepterChans.set l.accepter
            ⟨0, [], [⟨uint16 a1, uint16 a2⟩], false⟩) l.accepter ⟨0, [], [], false⟩),
          accepterMtx := false,
          receiverChans := (List.set (w.receiverChans ++ [Chan.make RECEIVER_BUFFERS])
            w.receiverChans.length ⟨RECEIVER_BUFFERS, [some d], [], false⟩),
          receivers := mapSet w.receivers (uint16 a1) w.receiverChans.length }, ?_, ?_⟩
      · simp [receiver, mapGet_mapSet, hd, sendOn, Chan.send, Chan.make, RECEIVER_BUFFERS]
      · simp

/-- C13 amended, two instances. With port 7000 listening and port 42 not open,
the event `acceptor(7000, 42, 99)` leaves the receiver registry empty and the
payload "aGk=" is refused before `Accept`. With port 42 already open (the state
`openWorld`), the same event makes `Accept` panic with "duplicate port". -/
theorem C13_accept_registers_receiver_witness :
    (∃ w1, acceptor
        { World.init with accepterChans := [Chan.make 0], accepters := [(7000, 0)],
                          calls := [.listen 7000] } 7000 42 99 = .blocked w1 ∧
      w1.receivers = [] ∧
      receiver w1 42 "aGk=" = .ret w1 (.str "target port is not open")) ∧
    (∃ w1, acceptor openWorld 7000 42 99 = .blocked w1 ∧
      listenerWasm.Accept w1 { listenAddr := newAddr 7000, accepter := 0 } =
        .panic "duplicate port") := by
  constructor
  · obtain ⟨w1, h1, h2, _, _, h5⟩ := C13_accept_registers_receiver
      { World.init with accepterChans := [Chan.make 0], accepters := [(7000, 0)],
                        calls := [.listen 7000] }
      { listenAddr := newAddr 7000, accepter := 0 } 7000 42 99 "aGk=" rfl rfl rfl
    exact ⟨w1, h1, h2, (h5 rfl).1⟩
  · obtain ⟨w1, h1, _, _, h4, _⟩ := C13_accept_registers_receiver openWorld
      { listenAddr := newAddr 7000, accepter := 0 } 7000 42 99 "aGk=" rfl rfl rfl
    exact ⟨w1, h1, h4 0 rfl⟩

/-! ## C14, C15: closing a listener twice, data for a closed port -/

/-- C14, the code at the failing input. `Listen(7000)` succeeds and a first
`Close` (the bridge reporting no error) removes port 7000 from the listener
registry and closes the channel; `Accept` then returns an error. A second
`Close`, the bridge again reporting no error, closes the closed channel and
panics. (When the bridge reports an error the second time, `Close` returns it
and leaves the registry as it was.) -/
theorem C14_second_close_panics :
    ∃ w1 l w2 w3,
      Listen World.init 7000 .null = .ret w1 l ∧
      l.Close w1 .null = .ret w2 () ∧
      mapGet w2.accepters 7000 = none ∧
      w2.accepterChans[l.accepter]? = some ⟨0, [], [], true⟩ ∧
      l.Accept w2 = .err w2 (.errorf "port %d has been closed" [toString 7000]) ∧
      l.Close w2 .null = .panic "close of closed channel" ∧
      l.Close w2 (.str "port is not open") = .err w3 (.errorf "port is not open" []) ∧
      w3.accepters = w2.accepters ∧ w3.accepterChans = w2.accepterChans :=
  ⟨{ World.init with accepterChans := [Chan.make 0], accepters := [(7000, 0)],
                      calls := [.listen 7000] },
    { listenAddr := newAddr 7000, accepter := 0 },
    { World.init with accepterChans := [⟨0, [], [], true⟩], accepters := [],
                      calls := [.listen 7000, .close 7000] },
    { World.init with accepterChans := [⟨0, [], [], true⟩], accepters := [],
                      calls := [.listen 7000, .close 7000, .close 7000] },
    rfl, rfl, rfl, rfl, rfl, rfl, by decide, rfl, rfl⟩

/-- C15, the code at the failing input. On the connection opened on port 42,
`closer(42)` closes the channel and leaves port 42 in the receiver registry; a
`receiver(42, "aGk=")` after it finds the entry, decodes the payload and sends
on the closed channel, which panics. (For port 43, never opened, `receiver`
returns "target port is not open" and changes nothing.) -/
theorem C15_data_after_closer_panics :
    ∃ w1 l w2 w4,
      Listen World.init 7000 .null = .ret w1 l ∧
      acceptor w1 7000 42 99 = .blocked w2 ∧
      l.Accept w2 = .ret openWorld openConn ∧
      closer openWorld 42 = .ret w4 .null ∧
      mapGet w4.receivers 42 = some openConn.receiver ∧
      receiver w4 42 "aGk=" = .panic "send on closed channel" ∧
      receiver openWorld 43 "aGk=" = .ret openWorld (.str "target port is not open") :=
  ⟨{ World.init with accepterChans := [Chan.make 0], accepters := [(7000, 0)],
                      calls := [.listen 7000] },
    { listenAddr := newAddr 7000, accepter := 0 },
    { openWorld with accepterChans := [⟨0, [], [⟨42, 99⟩], false⟩], accepterMtx := true,
                     receiverChans := [], receivers := [] },
    { openWorld with receiverChans := [⟨10, [], [], true⟩] },
    rfl, rfl, rfl, rfl, rfl, rfl, rfl⟩

/-! ## C16: Write -/

/-- C16 as stated fails. The host answers the bridge call `write` with the
error string `""`, present but empty: `Write` does not return `(0, err)`, it
panics on the check of `checkJsError`. -/
theorem C16_counterexample :
    (JsValue.str "").IsNull = false ∧ (JsValue.str "").IsUndefined = false ∧
    openConn.Write openWorld [104, 105] (.str "") =
      .panic "wasm module returns empty error message" ∧
    ∀ w1 n e, openConn.Write openWorld [104, 105] (.str "") ≠ .ret w1 openConn (n, e) :=
  ⟨rfl, rfl, rfl, fun _ _ _ h => by cases h⟩

/-- C16, amended. For every byte buffer `b` and every answer of the host, a
`Write` that returns has made exactly one bridge call, `write` for the
connection's local port with the encoded buffer. When the host reports no
error (null or undefined) it returns `(len(b), nil)`; when the host reports an
error whose string form is not empty it returns `(0, err)` with `err` made from
that string; when the host reports a present value with an empty string form,
`Write` panics with "wasm module returns empty error message". `Write` of the
empty buffer returns `(0, nil)` when the host reports no error. -/
theorem C16_write_all_or_nothing (w : World) (c : connWasm) (b : Bytes) (hostRet : JsValue) :
    (∀ w1, (c.Write w b hostRet).world? = some w1 →
      w1 = { w with calls := w.calls ++ [.write c.localAddr.port (EncodeToString b)] }) ∧
    (hostRet.IsNull = true ∨ hostRet.IsUndefined = true →
      c.Write w b hostRet =
        .ret { w with calls := w.calls ++ [.write c.localAddr.port (EncodeToString b)] } c
          (b.length, none)) ∧
    (hostRet.IsNull = false → hostRet.IsUndefined = false → hostRet.String.length ≠ 0 →
      c.Write w b hostRet =
        .ret { w with calls := w.calls ++ [.write c.localAddr.port (EncodeToString b)] } c
          (0, some (.errorf hostRet.String []))) ∧
    (hostRet.IsNull = false → hostRet.IsUndefined = false → hostRet.String.length = 0 →
      c.Write w b hostRet = .panic "wasm module returns empty error message") ∧
    c.Write w [] .null =
      .ret { w with calls := w.calls ++ [.write c.localAddr.port (EncodeToString [])] } c
        (0, none) := by
  refine ⟨?_, ?_, ?_, ?_, rfl⟩
  · intro w1 h
    unfold connWasm.Write at h
    simp only at h
    split at h
    · simp only [ConnResult.world?, Option.some.injEq] at h; exact h.symm
    · simp [ConnResult.world?] at h
    · simp only [ConnResult.world?, Option.some.injEq] at h; exact h.symm
  · intro h
    have hc : checkJsError hostRet = .nil := by
      unfold checkJsError
      rcases h with h | h <;> simp [h]
    simp [connWasm.Write, hc]
  · intro h1 h2 h3
    have hc : checkJsError hostRet = .err (.errorf hostRet.String []) := by
      simp [checkJsError, h1, h2, h3]
    simp [connWasm.Write, hc]
  · intro h1 h2 h3
    have hc : checkJsError hostRet = .panic "wasm module returns empty error message" := by
      simp [checkJsError, h1, h2, h3]
    simp [connWasm.Write, hc]

/-- C16 amended, an instance: five bytes written on port 42, the host answering
null, and then the host answering "closed". -/
theorem C16_write_all_or_nothing_witness :
    openConn.Write openWorld [104, 101, 108, 108, 111] .null =
        .ret { openWorld with calls := [.listen 7000, .write 42 "aGVsbG8="] } openConn (5, none) ∧
      openConn.Write openWorld [104, 101, 108, 108, 111] (.str "closed") =
        .ret { openWorld with calls := [.listen 7000, .write 42 "aGVsbG8="] } openConn
          (0, some (.errorf "closed" [])) :=
  ⟨(C16_write_all_or_nothing openWorld openConn [104, 101, 108, 108, 111] .null).2.1
      (Or.inl rfl),
    (C16_write_all_or_nothing openWorld openConn [104, 101, 108, 108, 111] (.str "closed")).2.2.1
      rfl rfl (by decide)⟩

/-! ## C18: what the host answers to a bridge call -/

/-- C18 as stated fails. For the host value `""`, present but empty,
`checkJsError` does not return an error: it panics, and so do `Listen`,
`Dialer`, `Write` and the two `Close` methods when the bridge answers it. -/
theorem C18_counterexample :
    checkJsError (.str "") = .panic "wasm module returns empty error message" ∧
    Listen World.init 7000 (.str "") = .panic "wasm module returns empty error message" ∧
    Dialer World.init "localhost:8080" [7] (.str "") =
      .panic "wasm module returns empty error message" ∧
    openConn.Write openWorld [104, 105] (.str "") =
      .panic "wasm module returns empty error message" ∧
    openConn.Close openWorld (.str "") = .panic "wasm module returns empty error message" ∧
    listenerWasm.Close openWorld { listenAddr := newAddr 7000, accepter := 0 } (.str "") =
      .panic "wasm module returns empty error message" :=
  ⟨rfl, rfl, by decide, rfl, rfl, rfl⟩

/-- C18, amended. For every bridge call result `v`, `checkJsError` returns no
error when `v` is null or undefined, returns the error made from the string
form of `v` when that form is not empty, and panics with "wasm module returns
empty error message" when `v` is present with an empty string form. In that
last case the operation that made the bridge call panics as well: `Listen` (on
a free port), `Dialer` (on a well-formed target, once a key is drawn), `Write`,
and `Close` of a connection or of a listener. -/
theorem C18_checkJsError_cases (v : JsValue) :
    (v.IsNull = true ∨ v.IsUndefined = true → checkJsError v = .nil) ∧
    (v.IsNull = false → v.IsUndefined = false → v.String.length ≠ 0 →
      checkJsError v = .err (.errorf v.String [])) ∧
    (v.IsNull = false → v.IsUndefined = false → v.String.length = 0 →
      checkJsError v = .panic "wasm module returns empty error message" ∧
      (∀ w port, w.accepterMtx = false → mapGet w.accepters port = none →
        Listen w port v = .panic "wasm module returns empty error message") ∧
      (∀ w target draws digits key, matchTarget target = some digits →
        pickKey w.connectors draws = some key →
        Dialer w target draws v = .panic "wasm module returns empty error message") ∧
      (∀ w (c : connWasm) b,
        c.Write w b v = .panic "wasm module returns empty error message") ∧
      (∀ w (c : connWasm), c.Close w v = .panic "wasm module returns empty error message") ∧
      (∀ w (l : listenerWasm),
        l.Close w v = .panic "wasm module returns empty error message")) := by
  refine ⟨?_, ?_, ?_⟩
  · intro h
    unfold checkJsError
    rcases h with h | h <;> simp [h]
  · intro h1 h2 h3
    simp [checkJsError, h1, h2, h3]
  · intro h1 h2 h3
    have hc : checkJsError v = .panic "wasm module returns empty error message" := by
      simp [checkJsError, h1, h2, h3]
    refine ⟨hc, ?_, ?_, ?_, ?_, ?_⟩
    · intro w port hfree hnone
      simp [Listen, hfree, hnone, hc]
    · intro w target draws digits key hm hk
      simp [Dialer, hm, hk, hc]
    · intro w c b
      simp [connWasm.Write, hc]
    · intro w c
      simp [connWasm.Close, hc]
    · intro w l
      simp [listenerWasm.Close, hc]

/-- C18 amended, an instance: the host answers "refused". -/
theorem C18_checkJsError_cases_witness :
    checkJsError (.str "refused") = .err (.errorf "refused" []) :=
  (C18_checkJsError_cases (.str "refused")).2.1 rfl rfl (by decide)

/-! ## C19: data cancels the deadline -/

theorem expire_of_not_before (c : connWasm) (now : Time) (h : ¬ c.deadline < now) :
    c.expire now = c := by
  unfold connWasm.expire
  rw [if_neg h]

/-- C19. Take a connection with an empty fragment queue and a deadline `d` that
lies after the current time. (1) When the first value in the channel is a
payload, `Read` takes it, returns its bytes without error and leaves the
deadline at the zero value; from then on, with the fragment queue empty again,
a `Read` at any time has a result that is never the timeout error, and on an
open empty channel it parks without a timer. (2) When the first value is the
wake sentinel, the loop takes it and goes on with the same connection: the
deadline and the fragment queue are unchanged. (3) When the sentinel is all the
open channel holds, `Read` takes it, waits with the timer for `d`, and returns
the timeout error with the connection unchanged. -/
theorem C19_data_cancels_deadline (w : World) (c : connWasm) (b : Bytes) (now : Time)
    (ch : Chan (Option Bytes))
    (hbuf : c.buffer = []) (hfut : now < c.deadline)
    (hch : w.receiverChans[c.receiver]? = some ch) :
    (∀ payload rest, ch.pending = some payload :: rest →
      ∃ w1 c1 ch1, c.Read w b now =
          some (.ret w1 c1 { b := (copy b payload).1, n := (copy b payload).2, err := none }) ∧
        c1.deadline = 0 ∧ c1.receiver = c.receiver ∧
        w1.receiverChans[c.receiver]? = some ch1 ∧ ch1.pending = rest ∧
        (c1.buffer = [] → ∀ w2 b2 now2,
          (∃ res, c1.Read w2 b2 now2 = some res ∧
            ∀ w3 c3 r, res = .ret w3 c3 r → r.err ≠ some (.errorf "timeout" [])) ∧
          (∀ ch2, w2.receiverChans[c1.receiver]? = some ch2 → ch2.closed = false →
            ch2.pending = [] → c1.Read w2 b2 now2 = some (.blocked w2 c1)))) ∧
    (∀ rest, ch.pending = none :: rest →
      ∃ ch1, ch1.pending = rest ∧ ch1.closed = ch.closed ∧
        ∀ fuel, connWasm.Read_loop (fuel + 1) false w c b now =
          connWasm.Read_loop fuel false
            { w with receiverChans := w.receiverChans.set c.receiver ch1 } c b now) ∧
    (ch.pending = [none] → ch.closed = false →
      ∃ w1, c.Read w b now =
        some (.ret w1 c { b := b, n := 0, err := some (.errorf "timeout" []) })) := by
  have hnb : ¬ c.deadline < now := Nat.lt_asymm hfut
  have hexp : c.expire now = c := expire_of_not_before c now hnb
  refine ⟨?_, ?_, ?_⟩
  · intro payload rest hp
    obtain ⟨ch1, r, hrecv, hp1, _, _, _⟩ := Chan.recv_of_pending_cons ch _ rest hp
    have hfuel : pendingCount w.receiverChans c.receiver = rest.length + 1 := by
      simp [pendingCount, hch, hp]
    have hch1 := getElem?_set_of_some w.receiverChans c.receiver ch ch1 hch
    have hread : c.Read w b now = some (.ret
        { w with receiverChans := w.receiverChans.set c.receiver ch1 }
        (if payload.length = (copy b payload).2 then
          { c with buffer := [], deadline := 0 }
         else { c with buffer := [payload.drop (copy b payload).2], deadline := 0 })
        { b := (copy b payload).1, n := (copy b payload).2, err := none }) := by
      unfold connWasm.Read
      rw [hfuel, Read_loop_empty _ w c b now hbuf, recvOn_eq _ _ ch hch, hrecv, hexp]
      simp only
      rw [Read_loop_buffer (rest.length + 1) _ _ b now payload [] rfl]
    refine ⟨_, _, ch1, hread, ?_, ?_, hch1, hp1, ?_⟩
    · split <;> rfl
    · split <;> rfl
    · intro hb1 w2 b2 now2
      have hd1 : (if payload.length = (copy b payload).2 then
          ({ c with buffer := [], deadline := 0 } : connWasm)
         else { c with buffer := [payload.drop (copy b payload).2], deadline := 0 }).deadline
            = 0 := by
        split <;> rfl
      generalize (if payload.length = (copy b payload).2 then
          ({ c with buffer := [], deadline := 0 } : connWasm)
         else { c with buffer := [payload.drop (copy b payload).2], deadline := 0 }) = c1
        at hb1 hd1 ⊢
      refine ⟨?_, ?_⟩
      · obtain ⟨res, hres⟩ := Read_total w2 c1 b2 now2
        refine ⟨res, hres, ?_⟩
        intro w3 c3 r hr
        exact ((Read_loop_no_timer _ w2 c1 b2 now2 res (Or.inl hd1) hb1 hres).1 w3 c3 r hr).1
      · intro ch2 hch2 hopen hp2
        have hfuel2 : pendingCount w2.receiverChans c1.receiver = 0 := by
          simp [pendingCount, hch2, hp2]
        unfold connWasm.Read
        rw [hfuel2, Read_loop_empty 1 w2 c1 b2 now2 hb1, recvOn_eq _ _ ch2 hch2,
          Chan.recv_of_pending_nil ch2 hp2, expire_of_zero c1 now2 hd1]
        simp [hopen, hd1]
  · intro rest hp
    obtain ⟨ch1, r, hrecv, hp1, hcl1, _, _⟩ := Chan.recv_of_pending_cons ch _ rest hp
    refine ⟨ch1, hp1, hcl1, ?_⟩
    intro fuel
    rw [Read_loop_empty fuel w c b now hbuf, recvOn_eq _ _ ch hch, hrecv, hexp]
  · intro hp hopen
    obtain ⟨ch1, r, hrecv, hp1, hcl1, _, _⟩ := Chan.recv_of_pending_cons ch _ [] hp
    have hfuel : pendingCount w.receiverChans c.receiver = 1 := by
      simp [pendingCount, hch, hp]
    have hch1 := getElem?_set_of_some w.receiverChans c.receiver ch ch1 hch
    have hne : c.deadline ≠ 0 := fun h => by rw [h] at hfut; exact Nat.not_lt_zero _ hfut
    refine ⟨{ w with receiverChans := w.receiverChans.set c.receiver ch1 }, ?_⟩
    unfold connWasm.Read
    rw [hfuel, Read_loop_empty _ w c b now hbuf, recvOn_eq _ _ ch hch, hrecv, hexp]
    simp only
    rw [Read_loop_empty _ _ c b now hbuf, recvOn_eq _ _ ch1 hch1,
      Chan.recv_of_pending_nil ch1 hp1, hexp]
    simp [hcl1, hopen, hne]

/-- C19, an instance: the connection of port 42 with the deadline 20, read at
time 10 when the payload "hi" is waiting. -/
theorem C19_data_cancels_deadline_witness :
    ∃ w1 c1 ch1, ({ openConn with deadline := 20 } : connWasm).Read
          { openWorld with receiverChans := [⟨10, [some [104, 105]], [], false⟩] } [7, 7] 10 =
          some (.ret w1 c1 { b := (copy [7, 7] [104, 105]).1, n := (copy [7, 7] [104, 105]).2,
                             err := none }) ∧
        c1.deadline = 0 ∧ c1.receiver = ({ openConn with deadline := 20 } : connWasm).receiver ∧
        w1.receiverChans[({ openConn with deadline := 20 } : connWasm).receiver]? = some ch1 ∧
        ch1.pending = [] ∧
        (c1.buffer = [] → ∀ w2 b2 now2,
          (∃ res, c1.Read w2 b2 now2 = some res ∧
            ∀ w3 c3 r, res = .ret w3 c3 r → r.err ≠ some (.errorf "timeout" [])) ∧
          (∀ ch2, w2.receiverChans[c1.receiver]? = some ch2 → ch2.closed = false →
            ch2.pending = [] → c1.Read w2 b2 now2 = some (.blocked w2 c1))) :=
  (C19_data_cancels_deadline
    { openWorld with receiverChans := [⟨10, [some [104, 105]], [], false⟩] }
    { openConn with deadline := 20 } [7, 7] 10 ⟨10, [some [104, 105]], [], false⟩
    rfl (by decide) rfl).1 [104, 105] [] rfl

/-! ## C17: the transport encoding -/

theorem b64Index_b64Char_fin : ∀ v : Fin 64, b64Index (b64Char v.val) = some v.val := by
  decide

theorem b64Index_b64Char (v : Nat) (h : v < 64) : b64Index (b64Char v) = some v :=
  b64Index_b64Char_fin ⟨v, h⟩

theorem decodeFrom_quad (v1 v2 v3 v4 : Nat) (h1 : v1 < 64) (h2 : v2 < 64) (h3 : v3 < 64)
    (h4 : v4 < 64) (rest : List Char) :
    decodeFrom (b64Char v1 :: b64Char v2 :: b64Char v3 :: b64Char v4 :: rest) [] =
      (decodeFrom rest []).map (fun r => quantumBytes [v1, v2, v3, v4] ++ r) := by
  simp [decodeFrom, b64Index_b64Char, h1, h2, h3, h4]

theorem pad_facts : b64Index (Char.ofNat 61) = none ∧ isNewline (Char.ofNat 61) = false ∧
    isPad (Char.ofNat 61) = true := by
  decide

theorem decodeFrom_pad1 (v1 v2 v3 : Nat) (h1 : v1 < 64) (h2 : v2 < 64) (h3 : v3 < 64) :
    decodeFrom [b64Char v1, b64Char v2, b64Char v3, Char.ofNat 61] [] =
      some (quantumBytes [v1, v2, v3]) := by
  simp [decodeFrom, b64Index_b64Char, h1, h2, h3, pad_facts, skipNewlines]

theorem decodeFrom_pad2 (v1 v2 : Nat) (h1 : v1 < 64) (h2 : v2 < 64) :
    decodeFrom [b64Char v1, b64Char v2, Char.ofNat 61, Char.ofNat 61] [] =
      some (quantumBytes [v1, v2]) := by
  simp [decodeFrom, b64Index_b64Char, h1, h2, pad_facts, skipNewlines]

theorem ofNat_byte (a : Byte) (x : Nat) (h : x % 256 = a.val) : (Fin.ofNat x : Byte) = a := by
  apply Fin.ext
  simp only [Fin.ofNat]
  exact h

theorem quantumBytes_three (a b c : Byte) :
    quantumBytes [a.val / 4, a.val % 4 * 16 + b.val / 16, b.val % 16 * 4 + c.val / 64,
      c.val % 64] = [a, b, c] := by
  have ha := a.isLt
  have hb := b.isLt
  have hc := c.isLt
  simp only [quantumBytes, List.getD_cons_zero, List.getD_cons_succ, List.length_cons,
    List.length_nil]
  have e1 := ofNat_byte a (((a.val / 4) * 262144 + (a.val % 4 * 16 + b.val / 16) * 4096 +
    (b.val % 16 * 4 + c.val / 64) * 64 + c.val % 64) / 65536) (by omega)
  have e2 := ofNat_byte b (((a.val / 4) * 262144 + (a.val % 4 * 16 + b.val / 16) * 4096 +
    (b.val % 16 * 4 + c.val / 64) * 64 + c.val % 64) / 256) (by omega)
  have e3 := ofNat_byte c ((a.val / 4) * 262144 + (a.val % 4 * 16 + b.val / 16) * 4096 +
    (b.val % 16 * 4 + c.val / 64) * 64 + c.val % 64) (by omega)
  rw [e1, e2, e3]
  rfl

theorem quantumBytes_two (a b : Byte) :
    quantumBytes [a.val / 4, a.val % 4 * 16 + b.val / 16, b.val % 16 * 4] = [a, b] := by
  have ha := a.isLt
  have hb := b.isLt
  simp only [quantumBytes, List.getD_cons_zero, List.getD_cons_succ, List.length_cons,
    List.length_nil, List.getD_nil]
  have e1 := ofNat_byte a (((a.val / 4) * 262144 + (a.val % 4 * 16 + b.val / 16) * 4096 +
    (b.val % 16 * 4) * 64 + 0) / 65536) (by omega)
  have e2 := ofNat_byte b (((a.val / 4) * 262144 + (a.val % 4 * 16 + b.val / 16) * 4096 +
    (b.val % 16 * 4) * 64 + 0) / 256) (by omega)
  rw [e1, e2]
  rfl

theorem quantumBytes_one (a : Byte) :
    quantumBytes [a.val / 4, a.val % 4 * 16] = [a] := by
  have ha := a.isLt
  simp only [quantumBytes, List.getD_cons_zero, List.getD_cons_succ, List.length_cons,
    List.length_nil, List.getD_nil]
  have e1 := ofNat_byte a (((a.val / 4) * 262144 + (a.val % 4 * 16) * 4096 + 0 * 64 + 0) /
    65536) (by omega)
  rw [e1]
  rfl

/-- Decoding what the encoder wrote gives the bytes back. -/
theorem decodeFrom_encodeChars : ∀ b : Bytes, decodeFrom (encodeChars b) [] = some b
  | [] => by simp [encodeChars, decodeFrom]
  | [a] => by
    have ha := a.isLt
    rw [encodeChars, decodeFrom_pad2 _ _ (by omega) (by omega), quantumBytes_one]
  | [a, b] => by
    have ha := a.isLt
    have hb := b.isLt
    rw [encodeChars, decodeFrom_pad1 _ _ _ (by omega) (by omega) (by omega), quantumBytes_two]
  | a :: b :: c :: rest => by
    have ha := a.isLt
    have hb := b.isLt
    have hc := c.isLt
    rw [encodeChars, decodeFrom_quad _ _ _ _ (by omega) (by omega) (by omega) (by omega),
      decodeFrom_encodeChars rest, quantumBytes_three]
    rfl

theorem DecodeString_EncodeToString (b : Bytes) : DecodeString (EncodeToString b) = some b :=
  decodeFrom_encodeChars b

theorem Write_calls (ws : World) (c : connWasm) (b : Bytes) (hostRet : JsValue)
    (ws1 : World) (h : (c.Write ws b hostRet).world? = some ws1) :
    ws1.calls = ws.calls ++ [.write c.localAddr.port (EncodeToString b)] := by
  unfold connWasm.Write at h
  simp only at h
  split at h
  · simp only [ConnResult.world?, Option.some.injEq] at h; rw [← h]
  · simp [ConnResult.world?] at h
  · simp only [ConnResult.world?, Option.some.injEq] at h; rw [← h]

/-- C17. For every byte sequence `b`: a `Write(b)` that returns has handed the
string `EncodeToString b` to the bridge; that string, delivered by the
`receiver` callback to an open port, is decoded to exactly `b`, and `b` is
queued last on the channel of that port (the callback returns nil, or parks
with the value while the channel is full). A payload string that the decoder
refuses is rejected: the callback returns the decoder's error and the state is
untouched, so nothing is queued. -/
theorem C17_transport_round_trip (ws : World) (c : connWasm) (hostRet : JsValue) (b : Bytes)
    (w : World) (a0 : Int) (ch : Chan (Option Bytes))
    (hreg : mapGet w.receivers (uint16 a0) = some c.receiver)
    (hch : w.receiverChans[c.receiver]? = some ch)
    (hopen : ch.closed = false) (hwf : ch.WF) :
    (∀ ws1, (c.Write ws b hostRet).world? = some ws1 →
      ws1.calls = ws.calls ++ [.write c.localAddr.port (EncodeToString b)]) ∧
    DecodeString (EncodeToString b) = some b ∧
    (∃ w1 ch1, (receiver w a0 (EncodeToString b) = .ret w1 .null ∨
        receiver w a0 (EncodeToString b) = .blocked w1) ∧
      w1.receiverChans[c.receiver]? = some ch1 ∧ ch1.pending = ch.pending ++ [some b] ∧
      w1.receivers = w.receivers) ∧
    (∀ data, DecodeString data = none → receiver w a0 data = .ret w (.goErr .corruptInput)) := by
  refine ⟨?_, DecodeString_EncodeToString b, ?_, ?_⟩
  · intro ws1 h
    rw [(Write_calls ws c b hostRet ws1 h)]
  · obtain ⟨ch1, hsend, hp1, _, _, _⟩ := Chan.send_open ch (some b) hopen hwf
    have hch1 := getElem?_set_of_some w.receiverChans c.receiver ch ch1 hch
    refine ⟨{ w with receiverChans := w.receiverChans.set c.receiver ch1 }, ch1, ?_, hch1, hp1,
      rfl⟩
    rcases hsend with h | h
    · left
      simp [receiver, hreg, DecodeString_EncodeToString, sendOn_eq _ _ ch _ hch, h]
    · right
      simp [receiver, hreg, DecodeString_EncodeToString, sendOn_eq _ _ ch _ hch, h]
  · intro data hd
    simp [receiver, hreg, hd]

/-- C17, an instance: the bytes of "hello" written, then delivered to port 42;
and the payload "%" refused. -/
theorem C17_transport_round_trip_witness :
    DecodeString (EncodeToString [104, 101, 108, 108, 111]) = some [104, 101, 108, 108, 111] ∧
      receiver openWorld 42 "%" = .ret openWorld (.goErr .corruptInput) :=
  ⟨(C17_transport_round_trip openWorld openConn .null [104, 101, 108, 108, 111] openWorld 42
      (Chan.make RECEIVER_BUFFERS) rfl rfl rfl (Or.inl rfl)).2.1,
    (C17_transport_round_trip openWorld openConn .null [104, 101, 108, 108, 111] openWorld 42
      (Chan.make RECEIVER_BUFFERS) rfl rfl rfl (Or.inl rfl)).2.2.2 "%" (by decide)⟩

end Wasm
